import Mathlib

/-
Verification development for the Our-Lang front end
(lexer, recursive-descent parser, symbol table, semantic analyzer),
shallowly embedded from src/semantic_analyzer.cpp.

Conventions of the embedding:
* C++ std::string source text is a List Char; std::string::operator[] is
  modelled by charAt, which returns the null character at any index at or
  beyond the length (C++ defines s[s.size()] to be the null terminator).
* The while-loops of the lexer are modelled by fuel-indexed structural
  recursions; each wrapper supplies fuel (length - pos), which is enough
  because every iteration advances pos by at least one, so the fuel-0
  fallthrough coincides with the loop exit.  Fuel-independence is proved
  where a claim needs it.
* nextToken additionally reports the index of the unguarded one-character
  operator lookahead read (the only read in the C++ code that is not
  preceded by a bounds check), so that claims about out-of-bounds reads
  can be stated.
* The parser is fuel-indexed (recursive descent does not structurally
  recurse on its input); C++ exceptions are modelled by Except.
* std::vector of scopes keeps the C++ orientation: index 0 is the global
  scope, the last element is the innermost scope.
* The value of a NumberLiteral (std::stod of the literal) is never
  inspected by the analyzer, so the AST keeps the literal text instead.
-/

-- ===========================================================================
-- Token types and lexer
-- ===========================================================================

inductive TokenType where
  | BANAO | KAAM | AGAR | WARNAH | DAURA | WAPAS | DEKH | LOU | HAAN | NA | BAND
  | NUMBER | STRING | IDENTIFIER
  | PLUS | MINUS | STAR | SLASH | PERCENT | ASSIGN
  | PLUS_ASSIGN | MINUS_ASSIGN | STAR_ASSIGN | SLASH_ASSIGN
  | EQ | NE | LT | GT | LE | GE | AND | OR | NOT
  | LPAREN | RPAREN | LBRACE | RBRACE | LBRACKET | RBRACKET
  | SEMICOLON | COMMA | COLON | DOT
  | EOF_TOKEN | UNKNOWN
deriving DecidableEq, Repr

structure Token where
  type : TokenType
  value : String
  line : Nat
  column : Nat
deriving DecidableEq, Repr

def keywords : List (String × TokenType) :=
  [("banao", .BANAO), ("kaam", .KAAM), ("agar", .AGAR), ("warnah", .WARNAH),
   ("daura", .DAURA), ("wapas", .WAPAS), ("dekh", .DEKH), ("lou", .LOU),
   ("haan", .HAAN), ("na", .NA), ("band", .BAND)]

/-- C isdigit in the default locale. -/
def cIsDigit (c : Char) : Bool := 48 ≤ c.toNat && c.toNat ≤ 57

/-- C isalpha in the default locale (ASCII letters). -/
def cIsAlpha (c : Char) : Bool :=
  (65 ≤ c.toNat && c.toNat ≤ 90) || (97 ≤ c.toNat && c.toNat ≤ 122)

/-- C isalnum in the default locale. -/
def cIsAlnum (c : Char) : Bool := cIsAlpha c || cIsDigit c

/-- C isspace in the default locale: space and the five control
whitespace characters 0x09 - 0x0D. -/
def cIsSpace (c : Char) : Bool := c.toNat = 32 || (9 ≤ c.toNat && c.toNat ≤ 13)

/-- Lexer state: the immutable source text plus the cursor fields of the
C++ Lexer class. -/
structure LState where
  source : List Char
  pos : Nat
  line : Nat
  column : Nat
deriving DecidableEq, Repr

/-- std::string::operator[]: in-range indices give the character, the index
equal to the length gives the null terminator (defined behavior in C++11+),
larger indices (never reached by the code) also give the null character. -/
def charAt (s : List Char) (i : Nat) : Char := s.getD i (Char.ofNat 0)

/-- The inner comment loop of skipWhitespaceAndComments:
while (pos < length && source[pos] != newline) pos++. -/
def skipCommentGo : Nat → LState → LState
  | 0, st => st
  | fuel+1, st =>
    if st.pos < st.source.length ∧ charAt st.source st.pos ≠ '\n' then
      skipCommentGo fuel { st with pos := st.pos + 1 }
    else st

def skipComment (st : LState) : LState :=
  skipCommentGo (st.source.length - st.pos) st

/-- Lexer::skipWhitespaceAndComments, one loop iteration per unit of fuel. -/
def skipWSGo : Nat → LState → LState
  | 0, st => st
  | fuel+1, st =>
    if st.pos < st.source.length then
      if cIsSpace (charAt st.source st.pos) then
        if charAt st.source st.pos = '\n' then
          skipWSGo fuel { st with pos := st.pos + 1, line := st.line + 1, column := 1 }
        else
          skipWSGo fuel { st with pos := st.pos + 1, column := st.column + 1 }
      else if charAt st.source st.pos = '/' ∧ st.pos + 1 < st.source.length ∧
              charAt st.source (st.pos + 1) = '/' then
        skipWSGo fuel (skipComment st)
      else st
    else st

def skipWhitespaceAndComments (st : LState) : LState :=
  skipWSGo (st.source.length - st.pos) st

/-- The scanning loop of Lexer::scanString (collect up to the matching
quote, updating line/column). -/
def scanStringGo : Nat → Char → LState → String → String × LState
  | 0, _, st, acc => (acc, st)
  | fuel+1, quote, st, acc =>
    if st.pos < st.source.length ∧ charAt st.source st.pos ≠ quote then
      let c := charAt st.source st.pos
      let st1 :=
        if c = '\n' then { st with line := st.line + 1, column := 1 }
        else { st with column := st.column + 1 }
      scanStringGo fuel quote { st1 with pos := st1.pos + 1 } (acc.push c)
    else (acc, st)

def scanString (quote : Char) (st : LState) : Token × LState :=
  let tokenLine := st.line
  let tokenCol := st.column
  let st1 : LState := { st with pos := st.pos + 1, column := st.column + 1 }
  let r := scanStringGo (st1.source.length - st1.pos) quote st1 ""
  let st3 :=
    if r.2.pos < r.2.source.length then
      { r.2 with pos := r.2.pos + 1, column := r.2.column + 1 }
    else r.2
  (⟨.STRING, r.1, tokenLine, tokenCol⟩, st3)

/-- The scanning loop of Lexer::scanNumber (digits and decimal points). -/
def scanNumberGo : Nat → LState → String → String × LState
  | 0, st, acc => (acc, st)
  | fuel+1, st, acc =>
    if st.pos < st.source.length ∧
       (cIsDigit (charAt st.source st.pos) ∨ charAt st.source st.pos = '.') then
      scanNumberGo fuel { st with pos := st.pos + 1, column := st.column + 1 }
        (acc.push (charAt st.source st.pos))
    else (acc, st)

def scanNumber (st : LState) : Token × LState :=
  let r := scanNumberGo (st.source.length - st.pos) st ""
  (⟨.NUMBER, r.1, st.line, st.column⟩, r.2)

/-- The scanning loop of Lexer::scanIdentifierOrKeyword. -/
def scanIdentGo : Nat → LState → String → String × LState
  | 0, st, acc => (acc, st)
  | fuel+1, st, acc =>
    if st.pos < st.source.length ∧
       (cIsAlnum (charAt st.source st.pos) ∨ charAt st.source st.pos = '_') then
      scanIdentGo fuel { st with pos := st.pos + 1, column := st.column + 1 }
        (acc.push (charAt st.source st.pos))
    else (acc, st)

def keywordLookup (s : String) : Option TokenType :=
  (keywords.find? (fun p => p.1 == s)).map (fun p => p.2)

def scanIdentifierOrKeyword (st : LState) : Token × LState :=
  let r := scanIdentGo (st.source.length - st.pos) st ""
  match keywordLookup r.1 with
  | some t => (⟨t, r.1, st.line, st.column⟩, r.2)
  | none => (⟨.IDENTIFIER, r.1, st.line, st.column⟩, r.2)

/-- One two-way branch of the operator switch: reads source[pos] (the
unguarded lookahead; its index is reported as the third component) and
fuses the two-character operator when it matches. -/
def twoChar (c2 : Char) (tTwo : TokenType) (sTwo : String)
    (tOne : TokenType) (sOne : String) (l c : Nat) (st : LState) :
    Token × LState × Option Nat :=
  if charAt st.source st.pos = c2 then
    (⟨tTwo, sTwo, l, c⟩, { st with pos := st.pos + 1, column := st.column + 1 }, some st.pos)
  else
    (⟨tOne, sOne, l, c⟩, st, some st.pos)

/-- The lookahead table of the operator switch: for a character that can
start a two-character operator, the expected second character and the
fused/plain token kinds and texts. -/
def twoCharSpec (ch : Char) :
    Option (Char × TokenType × String × TokenType × String) :=
  if ch = '+' then some ('=', .PLUS_ASSIGN, "+=", .PLUS, "+")
  else if ch = '-' then some ('=', .MINUS_ASSIGN, "-=", .MINUS, "-")
  else if ch = '*' then some ('=', .STAR_ASSIGN, "*=", .STAR, "*")
  else if ch = '/' then some ('=', .SLASH_ASSIGN, "/=", .SLASH, "/")
  else if ch = '=' then some ('=', .EQ, "==", .ASSIGN, "=")
  else if ch = '!' then some ('=', .NE, "!=", .NOT, "!")
  else if ch = '<' then some ('=', .LE, "<=", .LT, "<")
  else if ch = '>' then some ('=', .GE, ">=", .GT, ">")
  else if ch = '&' then some ('&', .AND, "&&", .UNKNOWN, "&")
  else if ch = '|' then some ('|', .OR, "||", .UNKNOWN, "|")
  else none

/-- The lookahead-free cases of the operator switch (including the
default case producing an UNKNOWN token carrying the character). -/
def singleTok (ch : Char) (l c : Nat) : Token :=
  if ch = '%' then ⟨.PERCENT, "%", l, c⟩
  else if ch = '(' then ⟨.LPAREN, "(", l, c⟩
  else if ch = ')' then ⟨.RPAREN, ")", l, c⟩
  else if ch = '\x7b' then ⟨.LBRACE, "\x7b", l, c⟩
  else if ch = '\x7d' then ⟨.RBRACE, "\x7d", l, c⟩
  else if ch = '[' then ⟨.LBRACKET, "[", l, c⟩
  else if ch = ']' then ⟨.RBRACKET, "]", l, c⟩
  else if ch = ';' then ⟨.SEMICOLON, ";", l, c⟩
  else if ch = ',' then ⟨.COMMA, ",", l, c⟩
  else if ch = ':' then ⟨.COLON, ":", l, c⟩
  else if ch = '.' then ⟨.DOT, ".", l, c⟩
  else ⟨.UNKNOWN, String.singleton ch, l, c⟩

/-- The switch statement of Lexer::nextToken, entered after pos++/column++;
st.pos is already one past the operator character.  The branches of the
C++ switch are split into the ten lookahead-performing cases (via
twoCharSpec and twoChar, which report the unguarded read at st.pos) and
the lookahead-free cases (via singleTok); the case conditions are
mutually exclusive, so this factoring preserves the switch semantics. -/
def opSwitch (ch : Char) (l c : Nat) (st : LState) : Token × LState × Option Nat :=
  match twoCharSpec ch with
  | some (c2, t2, s2, t1, s1) => twoChar c2 t2 s2 t1 s1 l c st
  | none => (singleTok ch l c, st, none)

/-- Lexer::nextToken.  Returns the token, the successor state, and the
index of the unguarded operator-lookahead read when one happened. -/
def nextToken (st0 : LState) : Token × LState × Option Nat :=
  let st := skipWhitespaceAndComments st0
  if st.pos < st.source.length then
    let tokenLine := st.line
    let tokenCol := st.column
    let ch := charAt st.source st.pos
    if ch = Char.ofNat 39 ∨ ch = Char.ofNat 34 then
      let r := scanString ch st
      (r.1, r.2, none)
    else if cIsDigit ch then
      let r := scanNumber st
      (r.1, r.2, none)
    else if cIsAlpha ch ∨ ch = '_' then
      let r := scanIdentifierOrKeyword st
      (r.1, r.2, none)
    else
      opSwitch ch tokenLine tokenCol { st with pos := st.pos + 1, column := st.column + 1 }
  else (⟨.EOF_TOKEN, "", st.line, st.column⟩, st, none)

/-- The token-collection loop of the driver: pull tokens until EOF,
keeping the final EOF token. -/
def tokenizeGo : Nat → LState → List Token
  | 0, _ => []
  | fuel+1, st =>
    let r := nextToken st
    if r.1.type = .EOF_TOKEN then [r.1]
    else r.1 :: tokenizeGo fuel r.2.1

def tokenize (st : LState) : List Token :=
  tokenizeGo (st.source.length - st.pos + 1) st

def lex (s : String) : List Token := tokenize ⟨s.data, 0, 1, 1⟩

example : lex "+=" = [⟨.PLUS_ASSIGN, "+=", 1, 1⟩, ⟨.EOF_TOKEN, "", 1, 3⟩] := rfl

example : lex "agar x1" =
    [⟨.AGAR, "agar", 1, 1⟩, ⟨.IDENTIFIER, "x1", 1, 6⟩, ⟨.EOF_TOKEN, "", 1, 8⟩] := rfl

example : lex "1 // hi\n2" =
    [⟨.NUMBER, "1", 1, 1⟩, ⟨.NUMBER, "2", 2, 1⟩, ⟨.EOF_TOKEN, "", 2, 2⟩] := rfl

-- ===========================================================================
-- AST node definitions
-- ===========================================================================

mutual
inductive Expr where
  | num (lit : String)
  | str (value : String)
  | boolLit (value : Bool)
  | ident (name : String)
  | binop (left : Expr) (op : String) (right : Expr)
  | unop (op : String) (operand : Expr)
  | assign (name : String) (value : Expr)
  | call (name : String) (args : ExprList)
  | arrayLit (elements : ExprList)
  | objectLit (members : MemberList)
  | arrayAccess (arrayName : String) (index : Expr)
inductive ExprList where
  | nil
  | cons (e : Expr) (rest : ExprList)
inductive MemberList where
  | nil
  | cons (key : String) (value : Expr) (rest : MemberList)
inductive OptExpr where
  | none
  | some (e : Expr)
inductive Stmt where
  | varDecl (name : String) (initializer : OptExpr)
  | funcDecl (name : String) (params : List String) (body : StmtList)
  | ifS (condition : Expr) (thenBranch : StmtList) (elseBranch : StmtList)
  | loop (condition : Expr) (body : StmtList)
  | ret (value : OptExpr)
  | exprStmt (e : Expr)
inductive StmtList where
  | nil
  | cons (s : Stmt) (rest : StmtList)
end

/-- dynamic_cast<Identifier*> as a test. -/
def Expr.isIdent : Expr → Bool
  | .ident _ => true
  | _ => false

/-- dynamic_cast<Identifier*>: the identifier name when the node is a
plain Identifier, none otherwise. -/
def Expr.identName? : Expr → Option String
  | .ident n => some n
  | _ => none

def ExprList.length : ExprList → Nat
  | .nil => 0
  | .cons _ rest => 1 + rest.length

-- ===========================================================================
-- Parser (recursive descent, fuel-indexed)
-- ===========================================================================

/-- Parse failure: a C++ runtime_error, or exhaustion of the fuel that
makes the embedded recursion structural (never hit with enough fuel). -/
inductive PErr where
  | fuelOut
  | runtime (msg : String)
deriving DecidableEq, Repr

structure PState where
  tokens : List Token
  current : Nat
deriving DecidableEq, Repr

/-- Parser::peek: out-of-range current yields a default EOF token. -/
def PState.peek (st : PState) : Token :=
  st.tokens.getD st.current ⟨.EOF_TOKEN, "", 0, 0⟩

def PState.isAtEnd (st : PState) : Bool := st.peek.type == .EOF_TOKEN

/-- Parser::previous: tokens[current - 1]; the C++ access is unchecked but
only reached after a successful advance, so the default is never produced. -/
def PState.previous (st : PState) : Token :=
  st.tokens.getD (st.current - 1) ⟨.UNKNOWN, "", 0, 0⟩

def PState.advance (st : PState) : Token × PState :=
  let st1 := if st.isAtEnd then st else { st with current := st.current + 1 }
  (st1.previous, st1)

def PState.check (st : PState) (t : TokenType) : Bool :=
  if st.isAtEnd then false else st.peek.type == t

def PState.matchTok (st : PState) (t : TokenType) : Bool × PState :=
  if st.check t then (true, st.advance.2) else (false, st)

/-- Short-circuit chain match(t1) || match(t2) || ... -/
def PState.matchFirst (st : PState) : List TokenType → Bool × PState
  | [] => (false, st)
  | t :: rest =>
    let m := st.matchTok t
    if m.1 then m else m.2.matchFirst rest

def PState.consume (st : PState) (t : TokenType) (msg : String) :
    Except PErr (Token × PState) :=
  if st.check t then .ok st.advance
  else .error (.runtime (msg ++ " at line " ++ toString st.peek.line))

mutual

/-- Parser::parseStatement; returns none exactly when the C++ code returns
nullptr (the bare-block branch, whose parsed statements are discarded). -/
def parseStatement : Nat → PState → Except PErr (Option Stmt × PState)
  | 0, _ => throw .fuelOut
  | fuel+1, st => do
    let m := st.matchTok .BANAO
    if m.1 then
      let r ← parseVariableDeclaration fuel m.2
      pure (some r.1, r.2)
    else
      let m := m.2.matchTok .KAAM
      if m.1 then
        let r ← parseFunctionDeclaration fuel m.2
        pure (some r.1, r.2)
      else
        let m := m.2.matchTok .AGAR
        if m.1 then
          let r ← parseIfStatement fuel m.2
          pure (some r.1, r.2)
        else
          let m := m.2.matchTok .DAURA
          if m.1 then
            let r ← parseLoopStatement fuel m.2
            pure (some r.1, r.2)
          else
            let m := m.2.matchTok .WAPAS
            if m.1 then
              let r ← parseReturnStatement fuel m.2
              pure (some r.1, r.2)
            else if m.2.check .LBRACE then
              let c1 ← m.2.consume .LBRACE "Expected \x27\x7b\x27"
              let r ← stmtListLoop fuel c1.2
              let c2 ← r.2.consume .RBRACE "Expected \x27\x7d\x27"
              pure (none, c2.2)  -- block statements handled differently: contents dropped
            else
              -- identifier / builtin-keyword heads and the fallthrough both
              -- call parseExpressionStatement in the C++ code
              let r ← parseExpressionStatement fuel m.2
              pure (some r.1, r.2)

/-- The while (!check(RBRACE) && !isAtEnd()) statement-collection loop,
shared by function bodies, if/else branches, loop bodies and bare blocks. -/
def stmtListLoop : Nat → PState → Except PErr (StmtList × PState)
  | 0, _ => throw .fuelOut
  | fuel+1, st =>
    if st.check .RBRACE = false ∧ st.isAtEnd = false then do
      let r ← parseStatement fuel st
      let rest ← stmtListLoop fuel r.2
      match r.1 with
      | some s => pure (.cons s rest.1, rest.2)
      | none => pure (rest.1, rest.2)
    else pure (.nil, st)

def parseVariableDeclaration : Nat → PState → Except PErr (Stmt × PState)
  | 0, _ => throw .fuelOut
  | fuel+1, st => do
    let nameTok ← st.consume .IDENTIFIER "Expected identifier"
    let m := nameTok.2.matchTok .ASSIGN
    let r ←
      if m.1 then do
        let e ← parseExpression fuel m.2
        pure (OptExpr.some e.1, e.2)
      else pure (OptExpr.none, m.2)
    let c ← r.2.consume .SEMICOLON "Expected \x27;\x27 after variable declaration"
    pure (.varDecl nameTok.1.value r.1, c.2)

def parseFunctionDeclaration : Nat → PState → Except PErr (Stmt × PState)
  | 0, _ => throw .fuelOut
  | fuel+1, st => do
    let nameTok ← st.consume .IDENTIFIER "Expected function name"
    let c1 ← nameTok.2.consume .LPAREN "Expected \x27(\x27 after function name"
    let ps ←
      if c1.2.check .RPAREN then pure (([] : List String), c1.2)
      else paramLoop fuel c1.2
    let c2 ← ps.2.consume .RPAREN "Expected \x27)\x27 after parameters"
    let c3 ← c2.2.consume .LBRACE "Expected \x27\x7b\x27 before function body"
    let body ← stmtListLoop fuel c3.2
    let c4 ← body.2.consume .RBRACE "Expected \x27\x7d\x27 after function body"
    pure (.funcDecl nameTok.1.value ps.1 body.1, c4.2)

/-- The do { params.push(consume(IDENTIFIER)) } while (match(COMMA)) loop. -/
def paramLoop : Nat → PState → Except PErr (List String × PState)
  | 0, _ => throw .fuelOut
  | fuel+1, st => do
    let p ← st.consume .IDENTIFIER "Expected parameter name"
    let m := p.2.matchTok .COMMA
    if m.1 then do
      let rest ← paramLoop fuel m.2
      pure (p.1.value :: rest.1, rest.2)
    else pure ([p.1.value], m.2)

def parseIfStatement : Nat → PState → Except PErr (Stmt × PState)
  | 0, _ => throw .fuelOut
  | fuel+1, st => do
    let c1 ← st.consume .LPAREN "Expected \x27(\x27 after \x27agar\x27"
    let cond ← parseExpression fuel c1.2
    let c2 ← cond.2.consume .RPAREN "Expected \x27)\x27 after if condition"
    let c3 ← c2.2.consume .LBRACE "Expected \x27\x7b\x27 before if body"
    let thn ← stmtListLoop fuel c3.2
    let c4 ← thn.2.consume .RBRACE "Expected \x27\x7d\x27 after if body"
    let m := c4.2.matchTok .WARNAH
    if m.1 then do
      let c5 ← m.2.consume .LBRACE "Expected \x27\x7b\x27 before else body"
      let els ← stmtListLoop fuel c5.2
      let c6 ← els.2.consume .RBRACE "Expected \x27\x7d\x27 after else body"
      pure (.ifS cond.1 thn.1 els.1, c6.2)
    else pure (.ifS cond.1 thn.1 .nil, m.2)

def parseLoopStatement : Nat → PState → Except PErr (Stmt × PState)
  | 0, _ => throw .fuelOut
  | fuel+1, st => do
    let c1 ← st.consume .LPAREN "Expected \x27(\x27 after \x27daura\x27"
    let cond ← parseExpression fuel c1.2
    let c2 ← cond.2.consume .RPAREN "Expected \x27)\x27 after loop condition"
    let c3 ← c2.2.consume .LBRACE "Expected \x27\x7b\x27 before loop body"
    let body ← stmtListLoop fuel c3.2
    let c4 ← body.2.consume .RBRACE "Expected \x27\x7d\x27 after loop body"
    pure (.loop cond.1 body.1, c4.2)

def parseReturnStatement : Nat → PState → Except PErr (Stmt × PState)
  | 0, _ => throw .fuelOut
  | fuel+1, st => do
    let r ←
      if st.check .SEMICOLON then pure (OptExpr.none, st)
      else do
        let e ← parseExpression fuel st
        pure (OptExpr.some e.1, e.2)
    let c ← r.2.consume .SEMICOLON "Expected \x27;\x27 after return statement"
    pure (.ret r.1, c.2)

def parseExpressionStatement : Nat → PState → Except PErr (Stmt × PState)
  | 0, _ => throw .fuelOut
  | fuel+1, st => do
    let e ← parseExpression fuel st
    let c ← e.2.consume .SEMICOLON "Expected \x27;\x27 after expression statement"
    pure (.exprStmt e.1, c.2)

def parseExpression : Nat → PState → Except PErr (Expr × PState)
  | 0, _ => throw .fuelOut
  | fuel+1, st => parseAssignment fuel st

def parseAssignment : Nat → PState → Except PErr (Expr × PState)
  | 0, _ => throw .fuelOut
  | fuel+1, st => do
    let e ← parseLogicalOr fuel st
    let m := e.2.matchTok .ASSIGN
    if m.1 then
      match e.1 with
      | .ident name => do
        let v ← parseAssignment fuel m.2
        pure (.assign name v.1, v.2)
      | _ => throw (.runtime "Invalid assignment target")
    else
      let m2 := m.2.matchFirst [.PLUS_ASSIGN, .MINUS_ASSIGN, .STAR_ASSIGN, .SLASH_ASSIGN]
      if m2.1 then
        match e.1 with
        | .ident name => do
          let op := m2.2.previous.value.dropRight 1  -- remove the trailing =
          let v ← parseAssignment fuel m2.2
          pure (.assign name (.binop (.ident name) op v.1), v.2)
        | _ => pure (e.1, m2.2)  -- no else in the C++ code: falls through to return expr
      else pure (e.1, m2.2)

def parseLogicalOr : Nat → PState → Except PErr (Expr × PState)
  | 0, _ => throw .fuelOut
  | fuel+1, st => do
    let l ← parseLogicalAnd fuel st
    orLoop fuel l.1 l.2

def orLoop : Nat → Expr → PState → Except PErr (Expr × PState)
  | 0, _, _ => throw .fuelOut
  | fuel+1, left, st =>
    let m := st.matchTok .OR
    if m.1 then do
      let r ← parseLogicalAnd fuel m.2
      orLoop fuel (.binop left m.2.previous.value r.1) r.2
    else pure (left, m.2)

def parseLogicalAnd : Nat → PState → Except PErr (Expr × PState)
  | 0, _ => throw .fuelOut
  | fuel+1, st => do
    let l ← parseEquality fuel st
    andLoop fuel l.1 l.2

def andLoop : Nat → Expr → PState → Except PErr (Expr × PState)
  | 0, _, _ => throw .fuelOut
  | fuel+1, left, st =>
    let m := st.matchTok .AND
    if m.1 then do
      let r ← parseEquality fuel m.2
      andLoop fuel (.binop left m.2.previous.value r.1) r.2
    else pure (left, m.2)

def parseEquality : Nat → PState → Except PErr (Expr × PState)
  | 0, _ => throw .fuelOut
  | fuel+1, st => do
    let l ← parseComparison fuel st
    eqLoop fuel l.1 l.2

def eqLoop : Nat → Expr → PState → Except PErr (Expr × PState)
  | 0, _, _ => throw .fuelOut
  | fuel+1, left, st =>
    let m := st.matchFirst [.EQ, .NE]
    if m.1 then do
      let r ← parseComparison fuel m.2
      eqLoop fuel (.binop left m.2.previous.value r.1) r.2
    else pure (left, m.2)

def parseComparison : Nat → PState → Except PErr (Expr × PState)
  | 0, _ => throw .fuelOut
  | fuel+1, st => do
    let l ← parseTerm fuel st
    compLoop fuel l.1 l.2

def compLoop : Nat → Expr → PState → Except PErr (Expr × PState)
  | 0, _, _ => throw .fuelOut
  | fuel+1, left, st =>
    let m := st.matchFirst [.LT, .LE, .GT, .GE]
    if m.1 then do
      let r ← parseTerm fuel m.2
      compLoop fuel (.binop left m.2.previous.value r.1) r.2
    else pure (left, m.2)

def parseTerm : Nat → PState → Except PErr (Expr × PState)
  | 0, _ => throw .fuelOut
  | fuel+1, st => do
    let l ← parseFactor fuel st
    termLoop fuel l.1 l.2

def termLoop : Nat → Expr → PState → Except PErr (Expr × PState)
  | 0, _, _ => throw .fuelOut
  | fuel+1, left, st =>
    let m := st.matchFirst [.PLUS, .MINUS]
    if m.1 then do
      let r ← parseFactor fuel m.2
      termLoop fuel (.binop left m.2.previous.value r.1) r.2
    else pure (left, m.2)

def parseFactor : Nat → PState → Except PErr (Expr × PState)
  | 0, _ => throw .fuelOut
  | fuel+1, st => do
    let l ← parseUnary fuel st
    factorLoop fuel l.1 l.2

def factorLoop : Nat → Expr → PState → Except PErr (Expr × PState)
  | 0, _, _ => throw .fuelOut
  | fuel+1, left, st =>
    let m := st.matchFirst [.STAR, .SLASH, .PERCENT]
    if m.1 then do
      let r ← parseUnary fuel m.2
      factorLoop fuel (.binop left m.2.previous.value r.1) r.2
    else pure (left, m.2)

def parseUnary : Nat → PState → Except PErr (Expr × PState)
  | 0, _ => throw .fuelOut
  | fuel+1, st =>
    let m := st.matchFirst [.NOT, .MINUS]
    if m.1 then do
      let e ← parseUnary fuel m.2
      pure (.unop m.2.previous.value e.1, e.2)
    else parsePostfixChain fuel m.2

/-- Parser::parsePostfix (primary followed by the postfix loop). -/
def parsePostfixChain : Nat → PState → Except PErr (Expr × PState)
  | 0, _ => throw .fuelOut
  | fuel+1, st => do
    let e ← parsePrimary fuel st
    postfixLoop fuel e.1 e.2

/-- The while (true) loop of Parser::parsePostfix.  Indexing wraps the
expression only when it is a plain identifier (otherwise the parsed index
is dropped on the floor); a call is only recognised when the expression is
a plain identifier (otherwise the loop exits leaving the parenthesis
unconsumed). -/
def postfixLoop : Nat → Expr → PState → Except PErr (Expr × PState)
  | 0, _, _ => throw .fuelOut
  | fuel+1, e, st =>
    let m := st.matchTok .LBRACKET
    if m.1 then do
      let idx ← parseExpression fuel m.2
      let c ← idx.2.consume .RBRACKET "Expected \x27]\x27 after array index"
      (e.identName?).elim (postfixLoop fuel e c.2)
        (fun name => postfixLoop fuel (.arrayAccess name idx.1) c.2)
    else
      (e.identName?).elim (pure (e, st))
        (fun name =>
          if st.check .LPAREN then do
            let st1 := (st.matchTok .LPAREN).2
            let args ←
              if st1.check .RPAREN then pure (ExprList.nil, st1)
              else argLoop fuel st1
            let c ← args.2.consume .RPAREN "Expected \x27)\x27 after function arguments"
            postfixLoop fuel (.call name args.1) c.2
          else pure (e, st))

/-- The do { args.push(parseExpression()) } while (match(COMMA)) loop,
also used for array-literal elements. -/
def argLoop : Nat → PState → Except PErr (ExprList × PState)
  | 0, _ => throw .fuelOut
  | fuel+1, st => do
    let a ← parseExpression fuel st
    let m := a.2.matchTok .COMMA
    if m.1 then do
      let rest ← argLoop fuel m.2
      pure (.cons a.1 rest.1, rest.2)
    else pure (.cons a.1 .nil, m.2)

/-- The do-while member loop of the object-literal branch. -/
def memberLoop : Nat → PState → Except PErr (MemberList × PState)
  | 0, _ => throw .fuelOut
  | fuel+1, st => do
    let key ← st.consume .IDENTIFIER "Expected property name"
    let c ← key.2.consume .COLON "Expected \x27:\x27 after property name"
    let v ← parseExpression fuel c.2
    let m := v.2.matchTok .COMMA
    if m.1 then do
      let rest ← memberLoop fuel m.2
      pure (.cons key.1.value v.1 rest.1, rest.2)
    else pure (.cons key.1.value v.1 .nil, m.2)

def parsePrimary : Nat → PState → Except PErr (Expr × PState)
  | 0, _ => throw .fuelOut
  | fuel+1, st =>
    let m := st.matchTok .HAAN
    if m.1 then pure (.boolLit true, m.2)
    else
      let m := m.2.matchTok .NA
      if m.1 then pure (.boolLit false, m.2)
      else
        let m := m.2.matchTok .NUMBER
        if m.1 then pure (.num m.2.previous.value, m.2)
        else
          let m := m.2.matchTok .STRING
          if m.1 then pure (.str m.2.previous.value, m.2)
          else
            let m := m.2.matchTok .IDENTIFIER
            if m.1 then pure (.ident m.2.previous.value, m.2)
            else
              let m := m.2.matchTok .DEKH
              if m.1 then pure (.ident "dekh", m.2)
              else
                let m := m.2.matchTok .LOU
                if m.1 then pure (.ident "lou", m.2)
                else
                  let m := m.2.matchTok .BAND
                  if m.1 then pure (.ident "band", m.2)
                  else
                    let m := m.2.matchTok .LBRACKET
                    if m.1 then do
                      let elems ←
                        if m.2.check .RBRACKET then pure (ExprList.nil, m.2)
                        else argLoop fuel m.2
                      let c ← elems.2.consume .RBRACKET "Expected \x27]\x27 after array elements"
                      pure (.arrayLit elems.1, c.2)
                    else
                      let m := m.2.matchTok .LBRACE
                      if m.1 then do
                        let mems ←
                          if m.2.check .RBRACE then pure (MemberList.nil, m.2)
                          else memberLoop fuel m.2
                        let c ← mems.2.consume .RBRACE "Expected \x27\x7d\x27 after object properties"
                        pure (.objectLit mems.1, c.2)
                      else
                        let m := m.2.matchTok .LPAREN
                        if m.1 then do
                          let e ← parseExpression fuel m.2
                          let c ← e.2.consume .RPAREN "Expected \x27)\x27 after expression"
                          pure (e.1, c.2)
                        else
                          throw (.runtime ("Expected expression at token: " ++ m.2.peek.value))

/-- The while loop of Parser::parse. -/
def parseTopLoop : Nat → PState → Except PErr (StmtList × PState)
  | 0, _ => throw .fuelOut
  | fuel+1, st =>
    if st.isAtEnd then pure (.nil, st)
    else if st.peek.type = .EOF_TOKEN then pure (.nil, st)
    else do
      let r ← parseStatement fuel st
      let rest ← parseTopLoop fuel r.2
      match r.1 with
      | some s => pure (.cons s rest.1, rest.2)
      | none => pure (rest.1, rest.2)

end

/-- Parser::parse on a token list (the Program node is its statement list). -/
def parseProgram (fuel : Nat) (toks : List Token) : Except PErr StmtList :=
  (parseTopLoop fuel ⟨toks, 0⟩).map (fun r => r.1)

example :
    parseProgram 100 (lex "banao x = 1 + 2;") =
      .ok (.cons (.varDecl "x" (.some (.binop (.num "1") "+" (.num "2")))) .nil) := rfl

example :
    parseProgram 100 (lex "kaam main() \x7b \x7d") =
      .ok (.cons (.funcDecl "main" [] .nil) .nil) := rfl


-- ===========================================================================
-- Type system
-- ===========================================================================

inductive DataType where
  | UNKNOWN | NUMBER | STRING | BOOLEAN | ARRAY | OBJECT | VOID | NIL
deriving DecidableEq, Repr

def dataTypeToString : DataType → String
  | .NUMBER => "number"
  | .STRING => "string"
  | .BOOLEAN => "boolean"
  | .ARRAY => "array"
  | .OBJECT => "object"
  | .VOID => "void"
  | .NIL => "nil"
  | .UNKNOWN => "unknown"

-- ===========================================================================
-- Symbol table and scope management
-- ===========================================================================

/-- The struct Symbol of the C++ code (the name Symbol is taken in this
Lean environment). -/
structure OLSymbol where
  name : String
  type : DataType
  isFunction : Bool
  isInitialized : Bool
  paramTypes : List DataType
  returnType : DataType
deriving DecidableEq, Repr

/-- The Symbol(name, type, func, init) constructor: paramTypes empty,
returnType VOID. -/
def symbolMk (n : String) (t : DataType) (func : Bool) (init : Bool) : OLSymbol :=
  ⟨n, t, func, init, [], .VOID⟩

/-- One scope: an unordered_map from names to symbols, modelled as an
association list with at most one entry per key (only find and
insert-or-overwrite are ever used, so iteration order is unobservable). -/
abbrev Scope := List (String × OLSymbol)

def scopeFind (s : Scope) (name : String) : Option OLSymbol :=
  (s.find? (fun p => p.1 == name)).map (fun p => p.2)

/-- unordered_map operator[] assignment: overwrite the existing mapping,
or add a new one. -/
def scopeInsert (s : Scope) (name : String) (sym : OLSymbol) : Scope :=
  if (s.find? (fun p => p.1 == name)).isSome then
    s.map (fun p => if p.1 == name then (name, sym) else p)
  else (name, sym) :: s

/-- The scope stack, in std::vector orientation: index 0 is the
global/builtin scope, the last element is the innermost scope. -/
structure SymbolTable where
  scopes : List Scope
deriving DecidableEq, Repr

/-- Apply f to the last scope (scopes.back()). -/
def modifyLast (f : Scope → Scope) : List Scope → List Scope
  | [] => []
  | [s] => [f s]
  | s :: rest => s :: modifyLast f rest

/-- scopes.back() (empty when the stack is empty, which never happens). -/
def lastScope : List Scope → Scope
  | [] => []
  | [s] => s
  | _ :: rest => lastScope rest

def SymbolTable.enterScope (t : SymbolTable) : SymbolTable :=
  ⟨t.scopes ++ [[]]⟩

def SymbolTable.exitScope (t : SymbolTable) : SymbolTable :=
  if 1 < t.scopes.length then ⟨t.scopes.dropLast⟩ else t

def SymbolTable.define (t : SymbolTable) (name : String) (ty : DataType)
    (isFunc : Bool) (isInit : Bool) : Bool × SymbolTable :=
  if (scopeFind (lastScope t.scopes) name).isSome then (false, t)
  else (true, ⟨modifyLast (fun s => scopeInsert s name (symbolMk name ty isFunc isInit)) t.scopes⟩)

/-- Search a scope list front-to-back (used on the reversed stack, i.e.
innermost-to-outermost, first match wins). -/
def lookupRev : List Scope → String → Option OLSymbol
  | [], _ => none
  | s :: rest, n =>
    match scopeFind s n with
    | some sym => some sym
    | none => lookupRev rest n

def SymbolTable.lookup (t : SymbolTable) (name : String) : Option OLSymbol :=
  lookupRev t.scopes.reverse name

/-- Mark the first binding (in the given order) as initialized. -/
def updateRev : List Scope → String → Bool × List Scope
  | [], _ => (false, [])
  | s :: rest, n =>
    if (scopeFind s n).isSome then
      (true, s.map (fun p => if p.1 == n then (p.1, { p.2 with isInitialized := true }) else p) :: rest)
    else
      let r := updateRev rest n
      (r.1, s :: r.2)

def SymbolTable.update (t : SymbolTable) (name : String) : Bool × SymbolTable :=
  let r := updateRev t.scopes.reverse name
  (r.1, ⟨r.2.reverse⟩)

/-- Installs directly into the global scope (index 0), overwriting. -/
def SymbolTable.addFunctionSignature (t : SymbolTable) (name : String)
    (params : List DataType) (returnType : DataType) : SymbolTable :=
  let sym : OLSymbol := ⟨name, .VOID, true, true, params, returnType⟩
  match t.scopes with
  | [] => t
  | g :: rest => ⟨scopeInsert g name sym :: rest⟩

/-- The SymbolTable constructor: one (global) scope plus initBuiltins. -/
def SymbolTable.new : SymbolTable :=
  let t : SymbolTable := ⟨[[]]⟩
  let t := t.addFunctionSignature "dekh" [.UNKNOWN] .VOID
  let t := t.addFunctionSignature "lou" [.STRING] .NUMBER
  let t := t.addFunctionSignature "nikal" [.UNKNOWN] .NUMBER
  let t := t.addFunctionSignature "band" [] .VOID
  let t := t.addFunctionSignature "abs" [.NUMBER] .NUMBER
  let t := t.addFunctionSignature "sqrt" [.NUMBER] .NUMBER
  let t := t.addFunctionSignature "pow" [.NUMBER, .NUMBER] .NUMBER
  let t := t.addFunctionSignature "max" [.NUMBER, .NUMBER] .NUMBER
  let t := t.addFunctionSignature "min" [.NUMBER, .NUMBER] .NUMBER
  let t := t.addFunctionSignature "round" [.NUMBER] .NUMBER
  t.addFunctionSignature "random" [] .NUMBER

-- ===========================================================================
-- Semantic analyzer
-- ===========================================================================

/-- SemanticAnalyzer state: symbol table, accumulated diagnostics (in
order of detection), and the function-context fields. -/
structure ASt where
  symbolTable : SymbolTable
  errors : List String
  currentReturnType : DataType
  inFunction : Bool
deriving DecidableEq, Repr

/-- SemanticAnalyzer() constructor state. -/
def ASt.init : ASt := ⟨SymbolTable.new, [], .VOID, false⟩

def ASt.addError (st : ASt) (msg : String) : ASt :=
  { st with errors := st.errors ++ [msg] }

/-- The parameter-definition loop of analyzeFunctionDeclaration: the
boolean result of define is discarded, so a duplicate parameter silently
keeps the first binding. -/
def defineParams (st : ASt) : List String → ASt
  | [] => st
  | p :: rest =>
    defineParams { st with symbolTable := (st.symbolTable.define p .UNKNOWN false true).2 } rest

/-- The operator ladder of SemanticAnalyzer::analyzeBinaryOp, after both
operand types have been synthesized. -/
def binaryOpCheck (st2 : ASt) (leftType : DataType) (op : String)
    (rightType : DataType) : DataType × ASt :=
  if op = "+" ∨ op = "-" ∨ op = "*" ∨ op = "/" ∨ op = "%" then
    -- allow void or unknown for recursive function calls
    let st3 :=
      if leftType ≠ .NUMBER ∧ leftType ≠ .UNKNOWN ∧ leftType ≠ .VOID then
        st2.addError ("ERROR: Left operand of \x27" ++ op ++ "\x27 must be number")
      else st2
    let st4 :=
      if rightType ≠ .NUMBER ∧ rightType ≠ .UNKNOWN ∧ rightType ≠ .VOID then
        st3.addError ("ERROR: Right operand of \x27" ++ op ++ "\x27 must be number")
      else st3
    (.NUMBER, st4)
  else if op = "<" ∨ op = "<=" ∨ op = ">" ∨ op = ">=" then
    let st3 :=
      if leftType ≠ .NUMBER ∧ leftType ≠ .UNKNOWN then
        st2.addError ("ERROR: Left operand of \x27" ++ op ++ "\x27 must be number")
      else st2
    let st4 :=
      if rightType ≠ .NUMBER ∧ rightType ≠ .UNKNOWN then
        st3.addError ("ERROR: Right operand of \x27" ++ op ++ "\x27 must be number")
      else st3
    (.BOOLEAN, st4)
  else if op = "==" ∨ op = "!=" then (.BOOLEAN, st2)
  else if op = "&&" ∨ op = "||" then
    let st3 :=
      if leftType ≠ .BOOLEAN ∧ leftType ≠ .UNKNOWN then
        st2.addError ("ERROR: Left operand of \x27" ++ op ++ "\x27 must be boolean")
      else st2
    let st4 :=
      if rightType ≠ .BOOLEAN ∧ rightType ≠ .UNKNOWN then
        st3.addError ("ERROR: Right operand of \x27" ++ op ++ "\x27 must be boolean")
      else st3
    (.BOOLEAN, st4)
  else (.UNKNOWN, st2)

/-- The operator ladder of SemanticAnalyzer::analyzeUnaryOp, after the
operand type has been synthesized. -/
def unaryOpCheck (st1 : ASt) (op : String) (operandType : DataType) : DataType × ASt :=
  if op = "-" then
    (.NUMBER,
      if operandType ≠ .NUMBER ∧ operandType ≠ .UNKNOWN then
        st1.addError "ERROR: Operand of \x27-\x27 must be number"
      else st1)
  else if op = "!" then
    (.BOOLEAN,
      if operandType ≠ .BOOLEAN ∧ operandType ≠ .UNKNOWN then
        st1.addError "ERROR: Operand of \x27!\x27 must be boolean"
      else st1)
  else (.UNKNOWN, st1)

/-- The if-condition check of SemanticAnalyzer::analyzeIfStatement. -/
def ifCondCheck (st : ASt) (condType : DataType) : ASt :=
  if condType ≠ .BOOLEAN ∧ condType ≠ .UNKNOWN ∧ condType ≠ .VOID then
    st.addError ("ERROR: If condition must be boolean, got " ++ dataTypeToString condType)
  else st

/-- The loop-condition check of SemanticAnalyzer::analyzeLoopStatement. -/
def loopCondCheck (st : ASt) (condType : DataType) : ASt :=
  if condType ≠ .BOOLEAN ∧ condType ≠ .UNKNOWN ∧ condType ≠ .VOID then
    st.addError ("ERROR: Loop condition must be boolean, got " ++ dataTypeToString condType)
  else st

mutual

/-- SemanticAnalyzer::analyzeExpression, with the bodies of the per-node
helpers (analyzeBinaryOp, analyzeUnaryOp, analyzeAssignment,
analyzeFunctionCall) inlined at their call sites so that the recursion
stays structural.  The per-node inferredType stamp on Identifier nodes is
not modelled (no claim reads it and the analyzer never reads it back). -/
def analyzeExpression (st : ASt) : Expr → DataType × ASt
  | .num _ => (.NUMBER, st)
  | .str _ => (.STRING, st)
  | .boolLit _ => (.BOOLEAN, st)
  | .ident name =>
    (st.symbolTable.lookup name).elim
      (.UNKNOWN, st.addError ("ERROR: Undefined variable \x27" ++ name ++ "\x27"))
      (fun sym => (sym.type, st))
  -- SemanticAnalyzer::analyzeBinaryOp
  | .binop l op r =>
    let lr := analyzeExpression st l
    let rr := analyzeExpression lr.2 r
    binaryOpCheck rr.2 lr.1 op rr.1
  -- SemanticAnalyzer::analyzeUnaryOp
  | .unop op e =>
    let r := analyzeExpression st e
    unaryOpCheck r.2 op r.1
  -- SemanticAnalyzer::analyzeAssignment
  | .assign name v =>
    (st.symbolTable.lookup name).elim
      (.UNKNOWN, st.addError ("ERROR: Undefined variable \x27" ++ name ++ "\x27"))
      (fun sym =>
      let r := analyzeExpression st v
      let st2 :=
        if sym.type ≠ .UNKNOWN ∧ r.1 ≠ .UNKNOWN ∧ sym.type ≠ r.1 then
          r.2.addError ("ERROR: Type mismatch in assignment to \x27" ++ name ++
            "\x27: expected " ++ dataTypeToString sym.type ++ ", got " ++ dataTypeToString r.1)
        else r.2
      (r.1, { st2 with symbolTable := (st2.symbolTable.update name).2 }))
  -- SemanticAnalyzer::analyzeFunctionCall
  | .call name args =>
    (st.symbolTable.lookup name).elim
      (.UNKNOWN, st.addError ("ERROR: Undefined function \x27" ++ name ++ "\x27"))
      (fun funcSym =>
      if funcSym.isFunction = false then
        (.UNKNOWN, st.addError ("ERROR: \x27" ++ name ++ "\x27 is not a function"))
      else if name = "dekh" then
        (.VOID, analyzeArgs st args)
      else if name = "lou" then
        match args with
        | .nil => (.NUMBER, st)
        | .cons a _ => (.NUMBER, (analyzeExpression st a).2)
      else if name = "nikal" then
        if args.length ≠ 1 then
          (.NUMBER, st.addError ("ERROR: nikal() expects 1 argument, got " ++ toString args.length))
        else
          match args with
          | .cons a _ => (.NUMBER, (analyzeExpression st a).2)
          | .nil => (.NUMBER, st)
      else if name = "band" then
        (.VOID, st)
      else if name = "abs" ∨ name = "sqrt" ∨ name = "round" then
        if args.length ≠ 1 then
          (.NUMBER, st.addError ("ERROR: " ++ name ++ "() expects 1 argument"))
        else
          match args with
          | .cons a _ =>
            let r := analyzeExpression st a
            (.NUMBER,
              if r.1 ≠ .NUMBER ∧ r.1 ≠ .UNKNOWN then
                r.2.addError ("ERROR: " ++ name ++ "() expects number argument")
              else r.2)
          | .nil => (.NUMBER, st)
      else if name = "pow" ∨ name = "max" ∨ name = "min" then
        if args.length ≠ 2 then
          (.NUMBER, st.addError ("ERROR: " ++ name ++ "() expects 2 arguments"))
        else (.NUMBER, analyzeNumArgs st name args)
      else if name = "random" then (.NUMBER, st)
      else
        -- user-defined function: argument-count check, then analyze arguments
        let st1 :=
          if args.length ≠ funcSym.paramTypes.length then
            st.addError ("ERROR: Function \x27" ++ name ++ "\x27 expects " ++
              toString funcSym.paramTypes.length ++ " arguments, got " ++ toString args.length)
          else st
        (funcSym.returnType, analyzeArgs st1 args))
  | .arrayLit _ => (.ARRAY, st)
  | .objectLit _ => (.OBJECT, st)
  | .arrayAccess name idx =>
    (st.symbolTable.lookup name).elim
      (.UNKNOWN, st.addError ("ERROR: Undefined array \x27" ++ name ++ "\x27"))
      (fun sym =>
      let st1 :=
        if sym.type ≠ .ARRAY ∧ sym.type ≠ .UNKNOWN then
          st.addError ("ERROR: Cannot index non-array type \x27" ++ name ++ "\x27")
        else st
      let r := analyzeExpression st1 idx
      let st2 :=
        if r.1 ≠ .NUMBER ∧ r.1 ≠ .UNKNOWN then
          r.2.addError ("ERROR: Array index must be number, got " ++ dataTypeToString r.1)
        else r.2
      (.UNKNOWN, st2))

/-- The plain argument-analysis loop (dekh and user-defined calls). -/
def analyzeArgs (st : ASt) : ExprList → ASt
  | .nil => st
  | .cons a rest => analyzeArgs (analyzeExpression st a).2 rest

/-- The argument loop of pow/max/min: analyze and require Number-or-Unknown. -/
def analyzeNumArgs (st : ASt) (name : String) : ExprList → ASt
  | .nil => st
  | .cons a rest =>
    let r := analyzeExpression st a
    let st1 :=
      if r.1 ≠ .NUMBER ∧ r.1 ≠ .UNKNOWN then
        r.2.addError ("ERROR: " ++ name ++ "() expects number arguments")
      else r.2
    analyzeNumArgs st1 name rest

/-- SemanticAnalyzer::analyzeStatement, with the bodies of the per-node
helpers (analyzeVariableDeclaration, analyzeFunctionDeclaration,
analyzeIfStatement, analyzeLoopStatement, analyzeReturnStatement)
inlined at their call sites so that the recursion stays structural. -/
def analyzeStatement (st : ASt) : Stmt → ASt
  -- SemanticAnalyzer::analyzeVariableDeclaration
  | .varDecl name init =>
    let r : DataType × ASt :=
      match init with
      | .some e => analyzeExpression st e
      | .none => (.UNKNOWN, st)
    let d := r.2.symbolTable.define name r.1 false true
    if d.1 = false then
      ASt.addError { r.2 with symbolTable := d.2 }
        ("ERROR: Variable \x27" ++ name ++ "\x27 already defined in current scope")
    else { r.2 with symbolTable := d.2 }
  -- SemanticAnalyzer::analyzeFunctionDeclaration
  | .funcDecl name params body =>
    let paramTypes := params.map (fun _ => DataType.UNKNOWN)
    let st1 := { st with symbolTable := st.symbolTable.addFunctionSignature name paramTypes .VOID }
    let st2 := { st1 with symbolTable := st1.symbolTable.enterScope,
                          inFunction := true, currentReturnType := .UNKNOWN }
    let st3 := defineParams st2 params
    let st4 := analyzeStatements st3 body
    { st4 with inFunction := st.inFunction, currentReturnType := st.currentReturnType,
               symbolTable := st4.symbolTable.exitScope }
  -- SemanticAnalyzer::analyzeIfStatement
  | .ifS cond thn els =>
    let r := analyzeExpression st cond
    let st1 := ifCondCheck r.2 r.1
    let st2 := { st1 with symbolTable := st1.symbolTable.enterScope }
    let st3 := analyzeStatements st2 thn
    let st4 := { st3 with symbolTable := st3.symbolTable.exitScope }
    match els with
    | .nil => st4
    | .cons _ _ =>
      let st5 := { st4 with symbolTable := st4.symbolTable.enterScope }
      let st6 := analyzeStatements st5 els
      { st6 with symbolTable := st6.symbolTable.exitScope }
  -- SemanticAnalyzer::analyzeLoopStatement
  | .loop cond body =>
    let r := analyzeExpression st cond
    let st1 := loopCondCheck r.2 r.1
    let st2 := { st1 with symbolTable := st1.symbolTable.enterScope }
    let st3 := analyzeStatements st2 body
    { st3 with symbolTable := st3.symbolTable.exitScope }
  -- SemanticAnalyzer::analyzeReturnStatement
  | .ret v =>
    if st.inFunction = false then
      st.addError "ERROR: Return statement outside function"
    else
      match v with
      | .some e => (analyzeExpression st e).2
      | .none => st
  | .exprStmt e => (analyzeExpression st e).2

/-- The statement loop of SemanticAnalyzer::analyze (also the body loops
of function/if/loop analysis). -/
def analyzeStatements (st : ASt) : StmtList → ASt
  | .nil => st
  | .cons s rest => analyzeStatements (analyzeStatement st s) rest

end

/-- SemanticAnalyzer::analyze: traverse all statements, then require a
symbol named main to be visible; the result is whether the diagnostic
list stayed empty.  (The analyzer model is total, so the C++ try/catch
around the traversal has no failing path to model.) -/
def analyze (prog : StmtList) : Bool × ASt :=
  let st := analyzeStatements ASt.init prog
  (st.symbolTable.lookup "main").elim
    (false, st.addError "ERROR: Main function \x27kaam main()\x27 not found")
    (fun _ => (st.errors.isEmpty, st))

example : (analyze (.cons (.funcDecl "main" [] .nil) .nil)).1 = true := rfl

example :
    (analyze .nil).2.errors = ["ERROR: Main function \x27kaam main()\x27 not found"] := rfl


-- ===========================================================================
-- Auxiliary definitions for the claims
-- ===========================================================================

mutual
/-- Does a statement syntactically declare a function of the given name
anywhere (top level or nested)? -/
def Stmt.declaresFuncNamed (n : String) : Stmt → Bool
  | .funcDecl name _ body => name == n || body.declaresFuncNamed n
  | .ifS _ t e => t.declaresFuncNamed n || e.declaresFuncNamed n
  | .loop _ b => b.declaresFuncNamed n
  | _ => false
/-- Does a program syntactically declare a function of the given name? -/
def StmtList.declaresFuncNamed (n : String) : StmtList → Bool
  | .nil => false
  | .cons s rest => s.declaresFuncNamed n || rest.declaresFuncNamed n
end

/-- One SymbolTable operation, for stating stack invariants over arbitrary
operation sequences. -/
inductive TableOp where
  | enterOp
  | exitOp
  | defineOp (n : String) (t : DataType) (f i : Bool)
  | updateOp (n : String)
  | addSigOp (n : String) (ps : List DataType) (rt : DataType)
  | lookupOp (n : String)
deriving DecidableEq, Repr

def applyOp (tbl : SymbolTable) : TableOp → SymbolTable
  | .enterOp => tbl.enterScope
  | .exitOp => tbl.exitScope
  | .defineOp n t f i => (tbl.define n t f i).2
  | .updateOp n => (tbl.update n).2
  | .addSigOp n ps rt => tbl.addFunctionSignature n ps rt
  | .lookupOp _ => tbl

def applyOps (tbl : SymbolTable) : List TableOp → SymbolTable
  | [] => tbl
  | op :: rest => applyOps (applyOp tbl op) rest

-- ===========================================================================
-- Helper lemmas
-- ===========================================================================

theorem addError_errors (st : ASt) (m : String) :
    (st.addError m).errors = st.errors ++ [m] := rfl

theorem addError_symbolTable (st : ASt) (m : String) :
    (st.addError m).symbolTable = st.symbolTable := rfl

theorem modifyLast_length (f : Scope → Scope) :
    ∀ l : List Scope, (modifyLast f l).length = l.length := by
  intro l
  induction l with
  | nil => rfl
  | cons s rest ih =>
    cases rest with
    | nil => rfl
    | cons r rs => simpa [modifyLast] using ih

theorem updateRev_length (n : String) :
    ∀ l : List Scope, (updateRev l n).2.length = l.length := by
  intro l
  induction l with
  | nil => rfl
  | cons s rest ih =>
    by_cases h : (scopeFind s n).isSome
    · simp [updateRev, h]
    · simp [updateRev, h, ih]

theorem define_length (tbl : SymbolTable) (n : String) (ty : DataType) (f i : Bool) :
    ((tbl.define n ty f i).2).scopes.length = tbl.scopes.length := by
  unfold SymbolTable.define
  by_cases h : (scopeFind (lastScope tbl.scopes) n).isSome
  · simp [h]
  · simp [h, modifyLast_length]

theorem update_length (tbl : SymbolTable) (n : String) :
    ((tbl.update n).2).scopes.length = tbl.scopes.length := by
  unfold SymbolTable.update
  simp [updateRev_length]

theorem addSig_length (tbl : SymbolTable) (n : String) (ps : List DataType) (rt : DataType) :
    (tbl.addFunctionSignature n ps rt).scopes.length = tbl.scopes.length := by
  unfold SymbolTable.addFunctionSignature
  cases h : tbl.scopes with
  | nil => simp [h]
  | cons g rest => simp [h]

theorem applyOp_length (tbl : SymbolTable) (op : TableOp) :
    1 ≤ tbl.scopes.length → 1 ≤ (applyOp tbl op).scopes.length := by
  intro h
  cases op with
  | enterOp => simp [applyOp, SymbolTable.enterScope]
  | exitOp =>
    unfold applyOp SymbolTable.exitScope
    by_cases h2 : 1 < tbl.scopes.length
    · simp only [h2, if_pos]
      simp [List.length_dropLast]
      omega
    · simpa [h2] using h
  | defineOp n t f i => simpa [applyOp, define_length] using h
  | updateOp n => simpa [applyOp, update_length] using h
  | addSigOp n ps rt => simpa [applyOp, addSig_length] using h
  | lookupOp n => simpa [applyOp] using h

theorem applyOps_length (ops : List TableOp) :
    ∀ tbl : SymbolTable, 1 ≤ tbl.scopes.length → 1 ≤ (applyOps tbl ops).scopes.length := by
  induction ops with
  | nil => intro tbl h; simpa [applyOps] using h
  | cons op rest ih =>
    intro tbl h
    simpa [applyOps] using ih (applyOp tbl op) (applyOp_length tbl op h)

theorem defineParams_errors (ps : List String) :
    ∀ st : ASt, (defineParams st ps).errors = st.errors := by
  induction ps with
  | nil => intro st; rfl
  | cons p rest ih => intro st; simpa [defineParams] using ih _

-- ===========================================================================
-- Claims C1, C9, C10
-- ===========================================================================

/-- Claim C1 (corrected), counterexample: a program whose only declaration
is a global variable named main contains no function named main, yet
analyze succeeds and does not record the missing-entry-point diagnostic,
because the entry-point check only asks whether some symbol named main is
visible. -/
theorem claim_C1_counterexample :
    StmtList.declaresFuncNamed "main"
        (.cons (.varDecl "main" (.some (.num "5"))) .nil) = false ∧
    (analyze (.cons (.varDecl "main" (.some (.num "5"))) .nil)).1 = true ∧
    "ERROR: Main function \x27kaam main()\x27 not found" ∉
      (analyze (.cons (.varDecl "main" (.some (.num "5"))) .nil)).2.errors := by
  refine ⟨rfl, rfl, ?_⟩
  decide

/-- Claim C1 (amended): analyze fails and records the missing-entry-point
diagnostic whenever, after traversal, no symbol named main (function or
variable) is visible in the symbol table; in particular a program that
defines no name main at all fails with that diagnostic even if it has no
other diagnostics. -/
theorem claim_C1 (prog : StmtList)
    (h : (analyzeStatements ASt.init prog).symbolTable.lookup "main" = none) :
    (analyze prog).1 = false ∧
    (analyze prog).2.errors =
      (analyzeStatements ASt.init prog).errors ++
        ["ERROR: Main function \x27kaam main()\x27 not found"] := by
  simp only [analyze, h]
  exact ⟨rfl, rfl⟩

/-- Witness for claim C1: the empty program defines nothing named main
and fails with exactly the missing-entry-point diagnostic. -/
theorem claim_C1_witness :
    (analyze StmtList.nil).1 = false ∧
    (analyze StmtList.nil).2.errors =
      (analyzeStatements ASt.init StmtList.nil).errors ++
        ["ERROR: Main function \x27kaam main()\x27 not found"] :=
  claim_C1 StmtList.nil rfl

/-- Claim C9 (confirmed): a call to the terminate builtin band resolves,
yields Void, and returns the analyzer state completely unchanged -- the
argument expressions are never analyzed, so no diagnostics (for example an
undefined variable inside an argument) can arise from them, whatever the
number of arguments. -/
theorem claim_C9 (st : ASt) (args : ExprList) (sym : OLSymbol)
    (h : st.symbolTable.lookup "band" = some sym) (hf : sym.isFunction = true) :
    analyzeExpression st (.call "band" args) = (.VOID, st) := by
  rw [analyzeExpression.eq_def]
  simp only [h, Option.elim]
  simp [hf]

/-- Witness for claim C9: from the initial analyzer state, band called on
an undefined variable produces Void and leaves the state untouched. -/
theorem claim_C9_witness :
    analyzeExpression ASt.init (.call "band" (.cons (.ident "zz") .nil)) =
      (.VOID, ASt.init) :=
  claim_C9 ASt.init (.cons (.ident "zz") .nil)
    ⟨"band", .VOID, true, true, [], .VOID⟩ rfl rfl

/-- Claim C10 (confirmed): a failed re-definition leaves the table exactly
as it was (the first binding survives) and returns false, and the
parameter-definition pass of a function declaration never records a
diagnostic, so a function whose parameter list repeats a name analyzes
without any error; concretely, analyzing kaam f(a, a) with an empty body
from the initial state produces no diagnostics, and the function scope
binds a to the first (and only) installed binding. -/
theorem claim_C10 :
    (∀ (tbl : SymbolTable) (name : String) (ty : DataType) (f i : Bool),
      (scopeFind (lastScope tbl.scopes) name).isSome = true →
      tbl.define name ty f i = (false, tbl)) ∧
    (∀ (st : ASt) (name : String) (ps : List String),
      (analyzeStatement st (.funcDecl name ps .nil)).errors = st.errors) ∧
    ((analyzeStatement ASt.init (.funcDecl "f" ["a", "a"] .nil)).errors = [] ∧
      scopeFind
        (lastScope (defineParams
          { ASt.init with
              symbolTable := ((ASt.init.symbolTable.addFunctionSignature "f"
                [.UNKNOWN, .UNKNOWN] .VOID).enterScope),
              inFunction := true, currentReturnType := .UNKNOWN }
          ["a", "a"]).symbolTable.scopes) "a" =
        some (symbolMk "a" .UNKNOWN false true)) := by
  refine ⟨?_, ?_, by decide, by decide⟩
  · intro tbl name ty f i h
    unfold SymbolTable.define
    simp [h]
  · intro st name ps
    have e : analyzeStatement st (.funcDecl name ps .nil) =
        (let st3 := defineParams
            { st with
              symbolTable := (st.symbolTable.addFunctionSignature name
                (ps.map (fun _ => DataType.UNKNOWN)) .VOID).enterScope,
              inFunction := true,
              currentReturnType := .UNKNOWN } ps
         { st3 with
           inFunction := st.inFunction,
           currentReturnType := st.currentReturnType,
           symbolTable := st3.symbolTable.exitScope }) := rfl
    rw [e]
    simp [defineParams_errors]

/-- Witness for claim C10: a table whose current scope already binds a
rejects the re-definition and is returned unchanged. -/
theorem claim_C10_witness :
    SymbolTable.define ⟨[[("a", symbolMk "a" .NUMBER false true)]]⟩ "a" .STRING false true =
      (false, ⟨[[("a", symbolMk "a" .NUMBER false true)]]⟩) :=
  claim_C10.1 ⟨[[("a", symbolMk "a" .NUMBER false true)]]⟩ "a" .STRING false true rfl

-- ===========================================================================
-- Claims C8, C7, C6
-- ===========================================================================

/-- Claim C8 (confirmed): starting from construction, every sequence of
SymbolTable operations leaves the scope stack non-empty; exitScope on the
sole remaining (global) scope is a no-op; enterScope pushes exactly one
new innermost scope at the end of the stack; and neither exitScope nor
enterScope (on a non-empty stack) disturbs the scope at index 0. -/
theorem claim_C8 :
    (∀ ops : List TableOp, 1 ≤ (applyOps SymbolTable.new ops).scopes.length) ∧
    (∀ tbl : SymbolTable, tbl.scopes.length = 1 → tbl.exitScope = tbl) ∧
    (∀ tbl : SymbolTable, tbl.enterScope.scopes = tbl.scopes ++ [[]]) ∧
    (∀ tbl : SymbolTable, tbl.exitScope.scopes.head? = tbl.scopes.head?) ∧
    (∀ tbl : SymbolTable, 1 ≤ tbl.scopes.length →
      tbl.enterScope.scopes.head? = tbl.scopes.head?) := by
  refine ⟨?_, ?_, ?_, ?_, ?_⟩
  · intro ops
    exact applyOps_length ops SymbolTable.new (by decide)
  · intro tbl h
    unfold SymbolTable.exitScope
    rw [if_neg]
    omega
  · intro tbl
    rfl
  · intro tbl
    obtain ⟨l⟩ := tbl
    unfold SymbolTable.exitScope
    cases l with
    | nil => simp
    | cons a t =>
      cases t with
      | nil => simp
      | cons b t2 =>
        rw [if_pos (by simp)]
        rfl
  · intro tbl h
    obtain ⟨l⟩ := tbl
    cases l with
    | nil => simp at h
    | cons a t => rfl

/-- Witness for claim C8: a table holding only the global scope survives
exitScope unchanged, and enterScope on it keeps the global scope at
index 0. -/
theorem claim_C8_witness :
    SymbolTable.exitScope ⟨[[]]⟩ = ⟨[[]]⟩ ∧
    (SymbolTable.enterScope ⟨[[]]⟩).scopes.head? =
      (⟨[[]]⟩ : SymbolTable).scopes.head? :=
  ⟨claim_C8.2.1 ⟨[[]]⟩ rfl, claim_C8.2.2.2.2 ⟨[[]]⟩ (by decide)⟩

theorem scopeFind_map_setInit (s : Scope) (n : String) :
    scopeFind (s.map (fun p => if p.1 == n then (p.1, { p.2 with isInitialized := true }) else p)) n
      = (scopeFind s n).map (fun sym => { sym with isInitialized := true }) := by
  induction s with
  | nil => rfl
  | cons p rest ih =>
    by_cases h : (p.1 == n) = true
    · have h2 : p.1 = n := by simpa using h
      simp [scopeFind, List.find?_cons, h, h2]
    · unfold scopeFind at *
      simp only [List.map_cons, List.find?_cons, h, if_neg, Bool.false_eq_true, ite_false]
      exact ih

theorem lookupRev_updateRev (n : String) :
    ∀ l : List Scope, lookupRev (updateRev l n).2 n =
      (lookupRev l n).map (fun s => { s with isInitialized := true }) := by
  intro l
  induction l with
  | nil => rfl
  | cons s rest ih =>
    by_cases h : (scopeFind s n).isSome = true
    · obtain ⟨sym, hs⟩ := Option.isSome_iff_exists.mp h
      unfold updateRev
      rw [if_pos h]
      unfold lookupRev
      rw [scopeFind_map_setInit, hs]
      rfl
    · have h0 : scopeFind s n = none := Option.not_isSome_iff_eq_none.mp (by simpa using h)
      unfold updateRev
      rw [if_neg h]
      unfold lookupRev
      rw [h0, ih]

theorem update_lookup (tbl : SymbolTable) (n : String) (s : OLSymbol)
    (h : tbl.lookup n = some s) :
    ((tbl.update n).2).lookup n = some { s with isInitialized := true } := by
  unfold SymbolTable.lookup SymbolTable.update at *
  simp only [List.reverse_reverse, lookupRev_updateRev]
  rw [h]
  rfl

/-- Claim C7 (confirmed): for an assignment expression, an undefined
target records an undefined-variable error and changes nothing else (no
implicit declaration); for a defined target, the assignment synthesizes
the value type, appends exactly one type-mismatch diagnostic (naming the
variable, the expected type and the actual type) precisely when both
types are known and differ, and marks the target binding initialized;
concretely, assigning a String to a variable initialized with a Number
literal in the same scope yields exactly that one diagnostic. -/
theorem claim_C7 :
    (∀ (st : ASt) (name : String) (v : Expr),
      st.symbolTable.lookup name = none →
      analyzeExpression st (.assign name v) =
        (.UNKNOWN, st.addError ("ERROR: Undefined variable \x27" ++ name ++ "\x27"))) ∧
    (∀ (st : ASt) (name : String) (v : Expr) (sym : OLSymbol),
      st.symbolTable.lookup name = some sym →
      ((analyzeExpression st (.assign name v)).1 = (analyzeExpression st v).1 ∧
       (analyzeExpression st (.assign name v)).2.errors =
         (analyzeExpression st v).2.errors ++
           (if sym.type ≠ .UNKNOWN ∧ (analyzeExpression st v).1 ≠ .UNKNOWN ∧
               sym.type ≠ (analyzeExpression st v).1 then
             ["ERROR: Type mismatch in assignment to \x27" ++ name ++ "\x27: expected " ++
               dataTypeToString sym.type ++ ", got " ++
               dataTypeToString (analyzeExpression st v).1]
            else []) ∧
       (∀ sym2 : OLSymbol,
         (analyzeExpression st v).2.symbolTable.lookup name = some sym2 →
         (analyzeExpression st (.assign name v)).2.symbolTable.lookup name =
           some { sym2 with isInitialized := true }))) ∧
    ((analyzeStatements ASt.init
        (.cons (.varDecl "x" (.some (.num "1")))
          (.cons (.exprStmt (.assign "x" (.str "s"))) .nil))).errors =
      ["ERROR: Type mismatch in assignment to \x27x\x27: expected number, got string"]) := by
  refine ⟨?_, ?_, by decide⟩
  · intro st name v h
    rw [analyzeExpression.eq_def]
    dsimp only
    rw [h]
    rfl
  · intro st name v sym h
    rw [analyzeExpression.eq_def]
    dsimp only
    rw [h]
    dsimp only [Option.elim]
    by_cases hc : sym.type ≠ DataType.UNKNOWN ∧ (analyzeExpression st v).1 ≠ DataType.UNKNOWN ∧
        sym.type ≠ (analyzeExpression st v).1
    · rw [if_pos hc, if_pos hc]
      refine ⟨rfl, rfl, ?_⟩
      intro sym2 h2
      exact update_lookup _ name sym2 h2
    · rw [if_neg hc, if_neg hc]
      refine ⟨rfl, by simp, ?_⟩
      intro sym2 h2
      exact update_lookup _ name sym2 h2

/-- Witness for claim C7: assigning to an undefined name zz records the
undefined-variable diagnostic, and for the defined variable x (bound to a
Number) assigning a String yields type String, appends exactly the
mismatch diagnostic, and marks x initialized. -/
theorem claim_C7_witness :
    (analyzeExpression ASt.init (.assign "zz" (.num "1")) =
      (.UNKNOWN, ASt.init.addError ("ERROR: Undefined variable \x27" ++ "zz" ++ "\x27"))) ∧
    ((analyzeExpression (analyzeStatement ASt.init (.varDecl "x" (.some (.num "1"))))
        (.assign "x" (.str "s"))).1 =
      (analyzeExpression (analyzeStatement ASt.init (.varDecl "x" (.some (.num "1"))))
        (.str "s")).1) := by
  refine ⟨claim_C7.1 ASt.init "zz" (.num "1") rfl, ?_⟩
  exact (claim_C7.2.1 (analyzeStatement ASt.init (.varDecl "x" (.some (.num "1"))))
    "x" (.str "s") (symbolMk "x" .NUMBER false true) rfl).1

/-- Claim C6 (confirmed): for a binary arithmetic expression, operands
whose synthesized type is Number, Unknown, or Void are accepted without
any diagnostic and the result type is Number; a call to a user-defined
(non-builtin) function yields the declared return type recorded in its
signature (always Void); and concretely, a function calling itself
recursively inside an arithmetic expression analyzes with no
diagnostics. -/
theorem claim_C6 :
    (∀ (st : ASt) (l : Expr) (op : String) (r : Expr),
      (op = "+" ∨ op = "-" ∨ op = "*" ∨ op = "/" ∨ op = "%") →
      ((analyzeExpression st l).1 = .NUMBER ∨ (analyzeExpression st l).1 = .UNKNOWN ∨
        (analyzeExpression st l).1 = .VOID) →
      ((analyzeExpression (analyzeExpression st l).2 r).1 = .NUMBER ∨
        (analyzeExpression (analyzeExpression st l).2 r).1 = .UNKNOWN ∨
        (analyzeExpression (analyzeExpression st l).2 r).1 = .VOID) →
      analyzeExpression st (.binop l op r) =
        (.NUMBER, (analyzeExpression (analyzeExpression st l).2 r).2)) ∧
    (∀ (st : ASt) (name : String) (args : ExprList) (sym : OLSymbol),
      st.symbolTable.lookup name = some sym → sym.isFunction = true →
      name ∉ ["dekh", "lou", "nikal", "band", "abs", "sqrt", "round",
              "pow", "max", "min", "random"] →
      (analyzeExpression st (.call name args)).1 = sym.returnType) ∧
    ((analyzeStatement ASt.init (.funcDecl "f" ["n"]
        (.cons (.ret (.some (.binop
          (.call "f" (.cons (.binop (.ident "n") "-" (.num "1")) .nil)) "*"
          (.ident "n")))) .nil))).errors = []) := by
  refine ⟨?_, ?_, by decide⟩
  · intro st l op r hop hl hr
    rw [analyzeExpression.eq_def]
    dsimp only
    unfold binaryOpCheck
    rw [if_pos hop]
    have nl : ¬((analyzeExpression st l).1 ≠ DataType.NUMBER ∧
        (analyzeExpression st l).1 ≠ DataType.UNKNOWN ∧
        (analyzeExpression st l).1 ≠ DataType.VOID) := by
      rcases hl with h | h | h <;> simp [h]
    have nr : ¬((analyzeExpression (analyzeExpression st l).2 r).1 ≠ DataType.NUMBER ∧
        (analyzeExpression (analyzeExpression st l).2 r).1 ≠ DataType.UNKNOWN ∧
        (analyzeExpression (analyzeExpression st l).2 r).1 ≠ DataType.VOID) := by
      rcases hr with h | h | h <;> simp [h]
    rw [if_neg nl]
    simp only [if_neg nr]
  · intro st name args sym h hf hmem
    simp only [List.mem_cons, List.mem_singleton, not_or] at hmem
    obtain ⟨h1, h2, h3, h4, h5, h6, h7, h8, h9, h10, h11, -⟩ := hmem
    rw [analyzeExpression.eq_def]
    dsimp only
    rw [h]
    dsimp only [Option.elim]
    rw [if_neg (by simp [hf])]
    rw [if_neg h1, if_neg h2, if_neg h3, if_neg h4]
    rw [if_neg (by simp [h5, h6, h7]), if_neg (by simp [h8, h9, h10]), if_neg h11]

/-- Witness for claim C6: 1 + 2 synthesizes Number with no new
diagnostics, and a call to the user-defined function g yields its
declared (Void) return type. -/
theorem claim_C6_witness :
    (analyzeExpression ASt.init (.binop (.num "1") "+" (.num "2")) =
      (.NUMBER, (analyzeExpression (analyzeExpression ASt.init (.num "1")).2 (.num "2")).2)) ∧
    ((analyzeExpression (analyzeStatement ASt.init (.funcDecl "g" [] .nil))
        (.call "g" .nil)).1 = DataType.VOID) := by
  constructor
  · exact claim_C6.1 ASt.init (.num "1") "+" (.num "2") (Or.inl rfl)
      (Or.inl rfl) (Or.inl rfl)
  · exact claim_C6.2.1 (analyzeStatement ASt.init (.funcDecl "g" [] .nil)) "g" .nil
      ⟨"g", .VOID, true, true, [], .VOID⟩ rfl rfl (by decide)

-- ===========================================================================
-- Claims C2, C3
-- ===========================================================================

/-- Claim C2 (corrected), counterexample: applying an array-index postfix
to a parenthesized non-identifier expression raises no parse error at
all -- the token sequence for (1+2)[0]; parses successfully and the index
is silently discarded, leaving only the base expression 1+2 in the
program. -/
theorem claim_C2_counterexample :
    parseProgram 100 (lex "(1+2)[0];") =
      .ok (.cons (.exprStmt (.binop (.num "1") "+" (.num "2"))) .nil) := rfl

/-- Claim C2 (amended): when a postfix is applied to an expression that is
not a plain identifier, the parser does not raise an error at the postfix
level: an index [...] is parsed and consumed but silently discarded (the
base expression passes through unchanged), and a call parenthesis is not
consumed at all (the loop exits, which in statement context surfaces
later as an unexpected-token parse error, unlike the immediate
invalid-assignment-target error); concretely (1+2)(3); fails only with
the statement-terminator diagnostic. -/
theorem claim_C2 :
    (∀ (fuel : Nat) (e : Expr) (st : PState),
      e.identName? = none → st.check .LBRACKET = true →
      postfixLoop (fuel+1) e st =
        (do
          let idx ← parseExpression fuel (st.matchTok .LBRACKET).2
          let c ← idx.2.consume .RBRACKET "Expected \x27]\x27 after array index"
          postfixLoop fuel e c.2)) ∧
    (∀ (fuel : Nat) (e : Expr) (st : PState),
      e.identName? = none → st.check .LPAREN = true →
      postfixLoop (fuel+1) e st = .ok (e, st)) ∧
    (parseProgram 100 (lex "(1+2)(3);") =
      .error (.runtime "Expected \x27;\x27 after expression statement at line 1")) := by
  refine ⟨?_, ?_, rfl⟩
  · intro fuel e st hnid hb
    rw [postfixLoop]
    simp only [PState.matchTok, hb, if_true]
    cases hpe : parseExpression fuel st.advance.2 with
    | error err => rfl
    | ok idx =>
      simp only [bind, Except.bind]
      cases hc : idx.2.consume .RBRACKET "Expected \x27]\x27 after array index" with
      | error err => rfl
      | ok c => simp only [hnid, Option.elim]
  · intro fuel e st hnid h
    have hb : st.check .LBRACKET = false := by
      unfold PState.check at *
      by_cases ha : st.isAtEnd
      · simp [ha] at h
      · simp [ha] at h ⊢
        simp [h]
    rw [postfixLoop]
    simp only [PState.matchTok, hb, Bool.false_eq_true, if_false, hnid, Option.elim]
    rfl

/-- Witness for claim C2: for the non-identifier base 1+2, an index
postfix is consumed with the base passed through, and a call parenthesis
is left unconsumed with the loop exiting. -/
theorem claim_C2_witness :
    (postfixLoop 6 (.binop (.num "1") "+" (.num "2")) ⟨lex "[0];", 0⟩ =
      (do
        let idx ← parseExpression 5 ((⟨lex "[0];", 0⟩ : PState).matchTok .LBRACKET).2
        let c ← idx.2.consume .RBRACKET "Expected \x27]\x27 after array index"
        postfixLoop 5 (.binop (.num "1") "+" (.num "2")) c.2)) ∧
    (postfixLoop 6 (.binop (.num "1") "+" (.num "2")) ⟨lex "(3);", 0⟩ =
      .ok (.binop (.num "1") "+" (.num "2"), ⟨lex "(3);", 0⟩)) :=
  ⟨claim_C2.1 5 (.binop (.num "1") "+" (.num "2")) ⟨lex "[0];", 0⟩ rfl rfl,
   claim_C2.2.1 5 (.binop (.num "1") "+" (.num "2")) ⟨lex "(3);", 0⟩ rfl rfl⟩

/-- Claim C3 (code defect): a bare brace-delimited block is syntactically
accepted, its inner statements are parsed, but the parser returns no
statement for it (the C++ code returns nullptr), so the block contents
are dropped from the Program: the program made of a bare block holding a
variable declaration followed by kaam main() parses to just the main
declaration, and the statement parser yields none for the block. -/
theorem claim_C3 :
    parseProgram 100 (lex "\x7b banao x = 1; \x7d kaam main() \x7b \x7d") =
      .ok (.cons (.funcDecl "main" [] .nil) .nil) ∧
    ∃ st2 : PState,
      parseStatement 100 ⟨lex "\x7b banao x = 1; \x7d", 0⟩ = .ok (none, st2) :=
  ⟨rfl, ⟨⟨lex "\x7b banao x = 1; \x7d", 7⟩, rfl⟩⟩

-- ===========================================================================
-- Diagnostics grow monotonically (append-only error list)
-- ===========================================================================

theorem prefix_addError (st : ASt) (m : String) : st.errors <+: (st.addError m).errors :=
  List.prefix_append _ _

theorem prefix_ite_addError (st : ASt) (c : Prop) [Decidable c] (m : String) :
    st.errors <+: (if c then st.addError m else st).errors := by
  split_ifs
  · exact prefix_addError st m
  · exact List.prefix_refl _

theorem prefix_ite_addError2 (st st2 : ASt) (h : st2.errors = st.errors) (c : Prop)
    [Decidable c] (m : String) :
    st.errors <+: (if c then st2.addError m else st2).errors := by
  split_ifs
  · rw [addError_errors, h]
    exact List.prefix_append _ _
  · rw [h]

theorem binaryOpCheck_errorsMono (st : ASt) (lt : DataType) (op : String) (rt : DataType) :
    st.errors <+: (binaryOpCheck st lt op rt).2.errors := by
  unfold binaryOpCheck
  split_ifs <;>
    simp only [addError_errors, List.append_assoc] <;>
    first
      | exact List.prefix_refl _
      | exact List.prefix_append _ _

theorem unaryOpCheck_errorsMono (st : ASt) (op : String) (t : DataType) :
    st.errors <+: (unaryOpCheck st op t).2.errors := by
  unfold unaryOpCheck
  split_ifs <;>
    first
      | exact List.prefix_refl _
      | exact prefix_addError _ _

theorem ifCondCheck_errorsMono (st : ASt) (t : DataType) :
    st.errors <+: (ifCondCheck st t).errors :=
  prefix_ite_addError st _ _

theorem loopCondCheck_errorsMono (st : ASt) (t : DataType) :
    st.errors <+: (loopCondCheck st t).errors :=
  prefix_ite_addError st _ _

-- Hand-stated one-step equations for the mutually recursive analyzer
-- (each holds by iota-reduction; the automatic equation generator times
-- out on this mutual definition).

theorem analyzeStatement_exprStmt (st : ASt) (e : Expr) :
    analyzeStatement st (.exprStmt e) = (analyzeExpression st e).2 := rfl

theorem analyzeStatement_ifS (st : ASt) (cond : Expr) (thn els : StmtList) :
    analyzeStatement st (.ifS cond thn els) =
      (let r := analyzeExpression st cond
       let st1 := ifCondCheck r.2 r.1
       let st2 := { st1 with symbolTable := st1.symbolTable.enterScope }
       let st3 := analyzeStatements st2 thn
       let st4 := { st3 with symbolTable := st3.symbolTable.exitScope }
       match els with
       | .nil => st4
       | .cons _ _ =>
         let st5 := { st4 with symbolTable := st4.symbolTable.enterScope }
         let st6 := analyzeStatements st5 els
         { st6 with symbolTable := st6.symbolTable.exitScope }) := rfl

theorem analyzeStatement_loop (st : ASt) (cond : Expr) (body : StmtList) :
    analyzeStatement st (.loop cond body) =
      (let r := analyzeExpression st cond
       let st1 := loopCondCheck r.2 r.1
       let st2 := { st1 with symbolTable := st1.symbolTable.enterScope }
       let st3 := analyzeStatements st2 body
       { st3 with symbolTable := st3.symbolTable.exitScope }) := rfl

theorem analyzeStatement_ret (st : ASt) (v : OptExpr) :
    analyzeStatement st (.ret v) =
      (if st.inFunction = false then
        st.addError "ERROR: Return statement outside function"
      else
        match v with
        | .some e => (analyzeExpression st e).2
        | .none => st) := rfl

theorem analyzeStatement_varDecl (st : ASt) (name : String) (init : OptExpr) :
    analyzeStatement st (.varDecl name init) =
      (let r : DataType × ASt :=
        match init with
        | .some e => analyzeExpression st e
        | .none => (.UNKNOWN, st)
       let d := r.2.symbolTable.define name r.1 false true
       if d.1 = false then
         ASt.addError { r.2 with symbolTable := d.2 }
           ("ERROR: Variable \x27" ++ name ++ "\x27 already defined in current scope")
       else { r.2 with symbolTable := d.2 }) := rfl

theorem analyzeStatement_funcDecl (st : ASt) (name : String) (params : List String)
    (body : StmtList) :
    analyzeStatement st (.funcDecl name params body) =
      (let st3 := defineParams
          { st with
            symbolTable := (st.symbolTable.addFunctionSignature name
              (params.map (fun _ => DataType.UNKNOWN)) .VOID).enterScope,
            inFunction := true,
            currentReturnType := .UNKNOWN } params
       let st4 := analyzeStatements st3 body
       { st4 with
         inFunction := st.inFunction,
         currentReturnType := st.currentReturnType,
         symbolTable := st4.symbolTable.exitScope }) := rfl

theorem analyzeStatements_cons (st : ASt) (s : Stmt) (rest : StmtList) :
    analyzeStatements st (.cons s rest) = analyzeStatements (analyzeStatement st s) rest := rfl

theorem analyzeArgs_cons (st : ASt) (a : Expr) (rest : ExprList) :
    analyzeArgs st (.cons a rest) = analyzeArgs (analyzeExpression st a).2 rest := rfl

theorem analyzeNumArgs_cons (st : ASt) (name : String) (a : Expr) (rest : ExprList) :
    analyzeNumArgs st name (.cons a rest) =
      (let r := analyzeExpression st a
       let st1 :=
         if r.1 ≠ .NUMBER ∧ r.1 ≠ .UNKNOWN then
           r.2.addError ("ERROR: " ++ name ++ "() expects number arguments")
         else r.2
       analyzeNumArgs st1 name rest) := rfl

/-- The analyzer only ever appends to the diagnostic list: the incoming
error list is a prefix of the outgoing one, for every analyzer entry
point (proved simultaneously by strong induction on node size). -/
theorem analyzerErrorsPrefix (n : Nat) :
    (∀ e : Expr, sizeOf e ≤ n → ∀ st : ASt,
      st.errors <+: (analyzeExpression st e).2.errors) ∧
    (∀ args : ExprList, sizeOf args ≤ n → ∀ st : ASt,
      st.errors <+: (analyzeArgs st args).errors) ∧
    (∀ args : ExprList, sizeOf args ≤ n → ∀ (st : ASt) (name : String),
      st.errors <+: (analyzeNumArgs st name args).errors) ∧
    (∀ s : Stmt, sizeOf s ≤ n → ∀ st : ASt,
      st.errors <+: (analyzeStatement st s).errors) ∧
    (∀ sl : StmtList, sizeOf sl ≤ n → ∀ st : ASt,
      st.errors <+: (analyzeStatements st sl).errors) := by
  induction n using Nat.strong_induction_on with
  | _ n ih =>
  refine ⟨?_, ?_, ?_, ?_, ?_⟩
  · -- expressions
    intro e hsz st
    cases e with
    | num lit => rw [analyzeExpression.eq_def]
    | str v => rw [analyzeExpression.eq_def]
    | boolLit b => rw [analyzeExpression.eq_def]
    | ident name =>
      rw [analyzeExpression.eq_def]
      dsimp only
      cases hl : st.symbolTable.lookup name with
      | none => exact prefix_addError _ _
      | some sym => exact List.prefix_refl _
    | binop l op r =>
      have hspec := Expr.binop.sizeOf_spec l op r
      have hl : sizeOf l < n := by omega
      have hr : sizeOf r < n := by omega
      rw [analyzeExpression.eq_def]
      dsimp only
      exact ((((ih (sizeOf l) hl).1 l (le_refl _) st).trans
        (((ih (sizeOf r) hr).1 r (le_refl _) _))).trans
        (binaryOpCheck_errorsMono _ _ _ _))
    | unop op a =>
      have hspec := Expr.unop.sizeOf_spec op a
      have ha : sizeOf a < n := by omega
      rw [analyzeExpression.eq_def]
      dsimp only
      exact (((ih (sizeOf a) ha).1 a (le_refl _) st).trans (unaryOpCheck_errorsMono _ _ _))
    | assign name v =>
      have hspec := Expr.assign.sizeOf_spec name v
      have hv : sizeOf v < n := by omega
      rw [analyzeExpression.eq_def]
      dsimp only
      cases hl : st.symbolTable.lookup name with
      | none => exact prefix_addError _ _
      | some sym =>
        dsimp only [Option.elim]
        exact (((ih (sizeOf v) hv).1 v (le_refl _) st).trans
          (prefix_ite_addError _ _ _))
    | call name args =>
      have hspec := Expr.call.sizeOf_spec name args
      have hargs : sizeOf args < n := by omega
      rw [analyzeExpression.eq_def]
      dsimp only
      cases hl : st.symbolTable.lookup name with
      | none => exact prefix_addError _ _
      | some funcSym =>
        dsimp only [Option.elim]
        by_cases hf : funcSym.isFunction = false
        · rw [if_pos hf]
          exact prefix_addError _ _
        · rw [if_neg hf]
          by_cases h1 : name = "dekh"
          · rw [if_pos h1]
            exact (ih (sizeOf args) hargs).2.1 args (le_refl _) st
          · rw [if_neg h1]
            by_cases h2 : name = "lou"
            · rw [if_pos h2]
              cases args with
              | nil => exact List.prefix_refl _
              | cons a rest =>
                have ha : sizeOf a < n := by
                  have := ExprList.cons.sizeOf_spec a rest
                  omega
                exact (ih (sizeOf a) ha).1 a (le_refl _) st
            · rw [if_neg h2]
              by_cases h3 : name = "nikal"
              · rw [if_pos h3]
                by_cases hn : args.length ≠ 1
                · rw [if_pos hn]
                  exact prefix_addError _ _
                · rw [if_neg hn]
                  cases args with
                  | nil => exact List.prefix_refl _
                  | cons a rest =>
                    have ha : sizeOf a < n := by
                      have := ExprList.cons.sizeOf_spec a rest
                      omega
                    exact (ih (sizeOf a) ha).1 a (le_refl _) st
              · rw [if_neg h3]
                by_cases h4 : name = "band"
                · rw [if_pos h4]
                · rw [if_neg h4]
                  by_cases h5 : name = "abs" ∨ name = "sqrt" ∨ name = "round"
                  · rw [if_pos h5]
                    by_cases hn : args.length ≠ 1
                    · rw [if_pos hn]
                      exact prefix_addError _ _
                    · rw [if_neg hn]
                      cases args with
                      | nil => exact List.prefix_refl _
                      | cons a rest =>
                        have ha : sizeOf a < n := by
                          have := ExprList.cons.sizeOf_spec a rest
                          omega
                        dsimp only
                        exact ((ih (sizeOf a) ha).1 a (le_refl _) st).trans
                          (prefix_ite_addError _ _ _)
                  · rw [if_neg h5]
                    by_cases h6 : name = "pow" ∨ name = "max" ∨ name = "min"
                    · rw [if_pos h6]
                      by_cases hn : args.length ≠ 2
                      · rw [if_pos hn]
                        exact prefix_addError _ _
                      · rw [if_neg hn]
                        exact (ih (sizeOf args) hargs).2.2.1 args (le_refl _) st name
                    · rw [if_neg h6]
                      by_cases h7 : name = "random"
                      · rw [if_pos h7]
                      · rw [if_neg h7]
                        exact (prefix_ite_addError st _ _).trans
                          ((ih (sizeOf args) hargs).2.1 args (le_refl _) _)
    | arrayLit es => rw [analyzeExpression.eq_def]
    | objectLit ms => rw [analyzeExpression.eq_def]
    | arrayAccess name idx =>
      have hspec := Expr.arrayAccess.sizeOf_spec name idx
      have hidx : sizeOf idx < n := by omega
      rw [analyzeExpression.eq_def]
      dsimp only
      cases hl : st.symbolTable.lookup name with
      | none => exact prefix_addError _ _
      | some sym =>
        dsimp only [Option.elim]
        exact ((prefix_ite_addError st _ _).trans
          ((ih (sizeOf idx) hidx).1 idx (le_refl _) _)).trans
          (prefix_ite_addError _ _ _)
  · -- analyzeArgs
    intro args hsz st
    cases args with
    | nil => exact List.prefix_refl _
    | cons a rest =>
      have hspec := ExprList.cons.sizeOf_spec a rest
      have ha : sizeOf a < n := by omega
      have hr : sizeOf rest < n := by omega
      rw [analyzeArgs_cons]
      exact ((ih (sizeOf a) ha).1 a (le_refl _) st).trans
        ((ih (sizeOf rest) hr).2.1 rest (le_refl _) _)
  · -- analyzeNumArgs
    intro args hsz st name
    cases args with
    | nil => exact List.prefix_refl _
    | cons a rest =>
      have hspec := ExprList.cons.sizeOf_spec a rest
      have ha : sizeOf a < n := by omega
      have hr : sizeOf rest < n := by omega
      rw [analyzeNumArgs_cons]
      dsimp only
      exact (((ih (sizeOf a) ha).1 a (le_refl _) st).trans
        (prefix_ite_addError _ _ _)).trans
        ((ih (sizeOf rest) hr).2.2.1 rest (le_refl _) _ name)
  · -- statements
    intro s hsz st
    cases s with
    | varDecl name init =>
      rw [analyzeStatement_varDecl]
      cases init with
      | none =>
        dsimp only
        apply prefix_ite_addError2
        rfl
      | some e =>
        have hspec := Stmt.varDecl.sizeOf_spec name (.some e)
        have hspec2 := OptExpr.some.sizeOf_spec e
        have he : sizeOf e < n := by omega
        dsimp only
        have h1 : st.errors <+: (analyzeExpression st e).2.errors :=
          (ih (sizeOf e) he).1 e (le_refl _) st
        exact h1.trans (prefix_ite_addError2 (analyzeExpression st e).2
          { (analyzeExpression st e).2 with
            symbolTable := ((analyzeExpression st e).2.symbolTable.define name
              (analyzeExpression st e).1 false true).2 }
          rfl _ _)
    | funcDecl name params body =>
      have hspec := Stmt.funcDecl.sizeOf_spec name params body
      have hb : sizeOf body < n := by omega
      rw [analyzeStatement_funcDecl]
      dsimp only
      have h := (ih (sizeOf body) hb).2.2.2.2 body (le_refl _)
        (defineParams
          { st with
            symbolTable := (st.symbolTable.addFunctionSignature name
              (params.map (fun _ => DataType.UNKNOWN)) .VOID).enterScope,
            inFunction := true,
            currentReturnType := .UNKNOWN } params)
      rwa [defineParams_errors] at h
    | ifS cond thn els =>
      have hspec := Stmt.ifS.sizeOf_spec cond thn els
      have hc : sizeOf cond < n := by omega
      have ht : sizeOf thn < n := by omega
      have he : sizeOf els < n := by omega
      rw [analyzeStatement_ifS]
      dsimp only
      cases els with
      | nil =>
        refine List.IsPrefix.trans ?_ ((ih (sizeOf thn) ht).2.2.2.2 thn (le_refl _) _)
        show st.errors <+:
          (ifCondCheck (analyzeExpression st cond).2 (analyzeExpression st cond).1).errors
        exact ((ih (sizeOf cond) hc).1 cond (le_refl _) st).trans (ifCondCheck_errorsMono _ _)
      | cons s2 rest2 =>
        refine List.IsPrefix.trans ?_
          ((ih (sizeOf (StmtList.cons s2 rest2)) he).2.2.2.2 _ (le_refl _) _)
        refine List.IsPrefix.trans ?_ ((ih (sizeOf thn) ht).2.2.2.2 thn (le_refl _) _)
        show st.errors <+:
          (ifCondCheck (analyzeExpression st cond).2 (analyzeExpression st cond).1).errors
        exact ((ih (sizeOf cond) hc).1 cond (le_refl _) st).trans (ifCondCheck_errorsMono _ _)
    | loop cond body =>
      have hspec := Stmt.loop.sizeOf_spec cond body
      have hc : sizeOf cond < n := by omega
      have hb : sizeOf body < n := by omega
      rw [analyzeStatement_loop]
      dsimp only
      refine List.IsPrefix.trans ?_ ((ih (sizeOf body) hb).2.2.2.2 body (le_refl _) _)
      show st.errors <+:
        (loopCondCheck (analyzeExpression st cond).2 (analyzeExpression st cond).1).errors
      exact ((ih (sizeOf cond) hc).1 cond (le_refl _) st).trans (loopCondCheck_errorsMono _ _)
    | ret v =>
      rw [analyzeStatement_ret]
      by_cases hf : st.inFunction = false
      · rw [if_pos hf]
        exact prefix_addError _ _
      · rw [if_neg hf]
        cases v with
        | none => exact List.prefix_refl _
        | some e =>
          have hspec := Stmt.ret.sizeOf_spec (.some e)
          have hspec2 := OptExpr.some.sizeOf_spec e
          have he : sizeOf e < n := by omega
          exact (ih (sizeOf e) he).1 e (le_refl _) st
    | exprStmt e =>
      have hspec := Stmt.exprStmt.sizeOf_spec e
      have he : sizeOf e < n := by omega
      rw [analyzeStatement_exprStmt]
      exact (ih (sizeOf e) he).1 e (le_refl _) st
  · -- statement lists
    intro sl hsz st
    cases sl with
    | nil => exact List.prefix_refl _
    | cons s rest =>
      have hspec := StmtList.cons.sizeOf_spec s rest
      have hs : sizeOf s < n := by omega
      have hr : sizeOf rest < n := by omega
      rw [analyzeStatements_cons]
      exact ((ih (sizeOf s) hs).2.2.2.1 s (le_refl _) st).trans
        ((ih (sizeOf rest) hr).2.2.2.2 rest (le_refl _) _)

-- ===========================================================================
-- Claim C5
-- ===========================================================================

theorem ifCondCheck_errors (st : ASt) (t : DataType) :
    (ifCondCheck st t).errors =
      st.errors ++
        (if t ≠ .BOOLEAN ∧ t ≠ .UNKNOWN ∧ t ≠ .VOID then
          ["ERROR: If condition must be boolean, got " ++ dataTypeToString t]
         else []) := by
  unfold ifCondCheck
  split_ifs <;> simp [addError_errors]

theorem loopCondCheck_errors (st : ASt) (t : DataType) :
    (loopCondCheck st t).errors =
      st.errors ++
        (if t ≠ .BOOLEAN ∧ t ≠ .UNKNOWN ∧ t ≠ .VOID then
          ["ERROR: Loop condition must be boolean, got " ++ dataTypeToString t]
         else []) := by
  unfold loopCondCheck
  split_ifs <;> simp [addError_errors]

theorem errors_prefix_ifS (st : ASt) (c : Expr) (thn els : StmtList) :
    (ifCondCheck (analyzeExpression st c).2 (analyzeExpression st c).1).errors <+:
      (analyzeStatement st (.ifS c thn els)).errors := by
  rw [analyzeStatement_ifS]
  dsimp only
  cases els with
  | nil =>
    refine List.IsPrefix.trans ?_
      ((analyzerErrorsPrefix (sizeOf thn)).2.2.2.2 thn (le_refl _) _)
    show (ifCondCheck (analyzeExpression st c).2 (analyzeExpression st c).1).errors <+:
      (ifCondCheck (analyzeExpression st c).2 (analyzeExpression st c).1).errors
    exact List.prefix_refl _
  | cons s2 r2 =>
    refine List.IsPrefix.trans ?_
      ((analyzerErrorsPrefix (sizeOf (StmtList.cons s2 r2))).2.2.2.2 _ (le_refl _) _)
    refine List.IsPrefix.trans ?_
      ((analyzerErrorsPrefix (sizeOf thn)).2.2.2.2 thn (le_refl _) _)
    show (ifCondCheck (analyzeExpression st c).2 (analyzeExpression st c).1).errors <+:
      (ifCondCheck (analyzeExpression st c).2 (analyzeExpression st c).1).errors
    exact List.prefix_refl _

theorem errors_prefix_loop (st : ASt) (c : Expr) (body : StmtList) :
    (loopCondCheck (analyzeExpression st c).2 (analyzeExpression st c).1).errors <+:
      (analyzeStatement st (.loop c body)).errors := by
  rw [analyzeStatement_loop]
  dsimp only
  refine List.IsPrefix.trans ?_
    ((analyzerErrorsPrefix (sizeOf body)).2.2.2.2 body (le_refl _) _)
  show (loopCondCheck (analyzeExpression st c).2 (analyzeExpression st c).1).errors <+:
    (loopCondCheck (analyzeExpression st c).2 (analyzeExpression st c).1).errors
  exact List.prefix_refl _

/-- Claim C5 (confirmed): for every if and every loop statement, the
analyzer records the condition type-mismatch diagnostic (right after the
diagnostics of the condition expression itself, and before the
diagnostics of the branches) exactly when the condition's synthesized
type is not Boolean, Unknown, or Void; concretely the fragment
agar (1 + 2) ( ) with braces parses to an if statement whose analysis
from the initial state produces exactly one diagnostic, citing the
condition type number. -/
theorem claim_C5 :
    (∀ (st : ASt) (c : Expr) (thn els : StmtList), ∃ rest : List String,
      (analyzeStatement st (.ifS c thn els)).errors =
        (analyzeExpression st c).2.errors ++
          (if (analyzeExpression st c).1 ≠ .BOOLEAN ∧ (analyzeExpression st c).1 ≠ .UNKNOWN ∧
              (analyzeExpression st c).1 ≠ .VOID then
            ["ERROR: If condition must be boolean, got " ++
              dataTypeToString (analyzeExpression st c).1]
           else []) ++ rest) ∧
    (∀ (st : ASt) (c : Expr) (body : StmtList), ∃ rest : List String,
      (analyzeStatement st (.loop c body)).errors =
        (analyzeExpression st c).2.errors ++
          (if (analyzeExpression st c).1 ≠ .BOOLEAN ∧ (analyzeExpression st c).1 ≠ .UNKNOWN ∧
              (analyzeExpression st c).1 ≠ .VOID then
            ["ERROR: Loop condition must be boolean, got " ++
              dataTypeToString (analyzeExpression st c).1]
           else []) ++ rest) ∧
    (parseProgram 100 (lex "agar (1 + 2) \x7b \x7d") =
      .ok (.cons (.ifS (.binop (.num "1") "+" (.num "2")) .nil .nil) .nil)) ∧
    ((analyzeStatement ASt.init (.ifS (.binop (.num "1") "+" (.num "2")) .nil .nil)).errors =
      ["ERROR: If condition must be boolean, got number"]) := by
  refine ⟨?_, ?_, rfl, by decide⟩
  · intro st c thn els
    obtain ⟨rest, hrest⟩ := errors_prefix_ifS st c thn els
    refine ⟨rest, ?_⟩
    rw [← hrest, ifCondCheck_errors, List.append_assoc]
  · intro st c body
    obtain ⟨rest, hrest⟩ := errors_prefix_loop st c body
    refine ⟨rest, ?_⟩
    rw [← hrest, loopCondCheck_errors, List.append_assoc]

-- ===========================================================================
-- Lexer lemmas for claim C4
-- ===========================================================================

theorem skipCommentGo_source (fuel : Nat) :
    ∀ st : LState, (skipCommentGo fuel st).source = st.source := by
  induction fuel with
  | zero => intro st; rfl
  | succ f ih =>
    intro st
    unfold skipCommentGo
    split_ifs with h
    · rw [ih]
    · rfl

theorem skipCommentGo_pos_le (fuel : Nat) :
    ∀ st : LState, st.pos ≤ (skipCommentGo fuel st).pos := by
  induction fuel with
  | zero => intro st; exact le_refl _
  | succ f ih =>
    intro st
    unfold skipCommentGo
    split_ifs with h
    · exact Nat.le_trans (Nat.le_succ st.pos) (ih { st with pos := st.pos + 1 })
    · exact le_refl _

theorem skipComment_source (st : LState) : (skipComment st).source = st.source :=
  skipCommentGo_source _ st

theorem skipComment_pos_lt (st : LState)
    (h1 : st.pos < st.source.length) (h2 : charAt st.source st.pos ≠ '\n') :
    st.pos + 1 ≤ (skipComment st).pos := by
  unfold skipComment
  have hf : st.source.length - st.pos = (st.source.length - st.pos - 1) + 1 := by omega
  rw [hf]
  unfold skipCommentGo
  rw [if_pos ⟨h1, h2⟩]
  exact skipCommentGo_pos_le _ { st with pos := st.pos + 1 }

theorem skipWSGo_source (fuel : Nat) :
    ∀ st : LState, (skipWSGo fuel st).source = st.source := by
  induction fuel with
  | zero => intro st; rfl
  | succ f ih =>
    intro st
    unfold skipWSGo
    split_ifs with h1 h2 h3 h4
    · rw [ih]
    · rw [ih]
    · rw [ih, skipComment_source]
    · rfl
    · rfl

theorem skipWSGo_pos_le (fuel : Nat) :
    ∀ st : LState, st.pos ≤ (skipWSGo fuel st).pos := by
  induction fuel with
  | zero => intro st; exact le_refl _
  | succ f ih =>
    intro st
    unfold skipWSGo
    split_ifs with h1 h2 h3 h4
    · exact Nat.le_trans (Nat.le_succ st.pos)
        (ih { st with pos := st.pos + 1, line := st.line + 1, column := 1 })
    · exact Nat.le_trans (Nat.le_succ st.pos)
        (ih { st with pos := st.pos + 1, column := st.column + 1 })
    · refine Nat.le_trans ?_ (ih (skipComment st))
      exact Nat.le_trans (Nat.le_succ st.pos) (skipComment_pos_lt st h1 (by simp [h4.1]))
    · exact le_refl _
    · exact le_refl _

theorem skipWhitespaceAndComments_source (st : LState) :
    (skipWhitespaceAndComments st).source = st.source :=
  skipWSGo_source _ st

theorem skipWhitespaceAndComments_pos_le (st : LState) :
    st.pos ≤ (skipWhitespaceAndComments st).pos :=
  skipWSGo_pos_le _ st

theorem skipWhitespaceAndComments_exhausted (st : LState)
    (h : st.source.length ≤ st.pos) : skipWhitespaceAndComments st = st := by
  unfold skipWhitespaceAndComments
  have hz : st.source.length - st.pos = 0 := by omega
  rw [hz]
  rfl

theorem scanStringGo_source (fuel : Nat) :
    ∀ (q : Char) (st : LState) (acc : String),
      (scanStringGo fuel q st acc).2.source = st.source := by
  induction fuel with
  | zero => intro q st acc; rfl
  | succ f ih =>
    intro q st acc
    unfold scanStringGo
    split_ifs with h
    · rw [ih]
      split_ifs <;> rfl
    · rfl

theorem scanStringGo_pos_le (fuel : Nat) :
    ∀ (q : Char) (st : LState) (acc : String),
      st.pos ≤ (scanStringGo fuel q st acc).2.pos := by
  induction fuel with
  | zero => intro q st acc; exact le_refl _
  | succ f ih =>
    intro q st acc
    unfold scanStringGo
    split_ifs with h
    · by_cases h2 : charAt st.source st.pos = '\n'
      · simp only [if_pos h2]
        exact Nat.le_trans (Nat.le_succ st.pos)
          (ih q { st with line := st.line + 1, column := 1, pos := st.pos + 1 }
            (acc.push (charAt st.source st.pos)))
      · simp only [if_neg h2]
        exact Nat.le_trans (Nat.le_succ st.pos)
          (ih q { st with column := st.column + 1, pos := st.pos + 1 }
            (acc.push (charAt st.source st.pos)))
    · exact le_refl _

theorem scanString_source (q : Char) (st : LState) :
    (scanString q st).2.source = st.source := by
  simp only [scanString]
  split_ifs with h
  · exact scanStringGo_source _ q { st with pos := st.pos + 1, column := st.column + 1 } ""
  · exact scanStringGo_source _ q { st with pos := st.pos + 1, column := st.column + 1 } ""

theorem scanString_pos_lt (q : Char) (st : LState) :
    st.pos + 1 ≤ (scanString q st).2.pos := by
  simp only [scanString]
  split_ifs with h
  · exact Nat.le_trans
      (scanStringGo_pos_le _ q { st with pos := st.pos + 1, column := st.column + 1 } "")
      (Nat.le_succ _)
  · exact scanStringGo_pos_le _ q { st with pos := st.pos + 1, column := st.column + 1 } ""

theorem scanNumberGo_source (fuel : Nat) :
    ∀ (st : LState) (acc : String), (scanNumberGo fuel st acc).2.source = st.source := by
  induction fuel with
  | zero => intro st acc; rfl
  | succ f ih =>
    intro st acc
    unfold scanNumberGo
    split_ifs with h
    · rw [ih]
    · rfl

theorem scanNumberGo_pos_le (fuel : Nat) :
    ∀ (st : LState) (acc : String), st.pos ≤ (scanNumberGo fuel st acc).2.pos := by
  induction fuel with
  | zero => intro st acc; exact le_refl _
  | succ f ih =>
    intro st acc
    unfold scanNumberGo
    split_ifs with h
    · exact Nat.le_trans (Nat.le_succ st.pos)
        (ih { st with pos := st.pos + 1, column := st.column + 1 }
          (acc.push (charAt st.source st.pos)))
    · exact le_refl _

theorem scanNumber_source (st : LState) : (scanNumber st).2.source = st.source :=
  scanNumberGo_source _ st _

theorem scanNumber_pos_lt (st : LState)
    (h1 : st.pos < st.source.length) (h2 : cIsDigit (charAt st.source st.pos) = true) :
    st.pos + 1 ≤ (scanNumber st).2.pos := by
  unfold scanNumber
  dsimp only
  have hf : st.source.length - st.pos = (st.source.length - st.pos - 1) + 1 := by omega
  rw [hf]
  unfold scanNumberGo
  rw [if_pos ⟨h1, Or.inl h2⟩]
  exact scanNumberGo_pos_le _ { st with pos := st.pos + 1, column := st.column + 1 } _

theorem scanIdentGo_source (fuel : Nat) :
    ∀ (st : LState) (acc : String), (scanIdentGo fuel st acc).2.source = st.source := by
  induction fuel with
  | zero => intro st acc; rfl
  | succ f ih =>
    intro st acc
    unfold scanIdentGo
    split_ifs with h
    · rw [ih]
    · rfl

theorem scanIdentGo_pos_le (fuel : Nat) :
    ∀ (st : LState) (acc : String), st.pos ≤ (scanIdentGo fuel st acc).2.pos := by
  induction fuel with
  | zero => intro st acc; exact le_refl _
  | succ f ih =>
    intro st acc
    unfold scanIdentGo
    split_ifs with h
    · exact Nat.le_trans (Nat.le_succ st.pos)
        (ih { st with pos := st.pos + 1, column := st.column + 1 }
          (acc.push (charAt st.source st.pos)))
    · exact le_refl _

theorem scanIdentifierOrKeyword_source (st : LState) :
    (scanIdentifierOrKeyword st).2.source = st.source := by
  simp only [scanIdentifierOrKeyword]
  cases keywordLookup (scanIdentGo (st.source.length - st.pos) st "").1 with
  | none => exact scanIdentGo_source _ _ _
  | some t => exact scanIdentGo_source _ _ _

theorem scanIdentifierOrKeyword_pos_lt (st : LState)
    (h1 : st.pos < st.source.length)
    (h2 : cIsAlnum (charAt st.source st.pos) = true ∨ charAt st.source st.pos = '_') :
    st.pos + 1 ≤ (scanIdentifierOrKeyword st).2.pos := by
  have key : st.pos + 1 ≤ (scanIdentGo (st.source.length - st.pos) st "").2.pos := by
    have hf : st.source.length - st.pos = (st.source.length - st.pos - 1) + 1 := by omega
    rw [hf]
    unfold scanIdentGo
    rw [if_pos ⟨h1, h2⟩]
    exact scanIdentGo_pos_le _ { st with pos := st.pos + 1, column := st.column + 1 } _
  simp only [scanIdentifierOrKeyword]
  cases keywordLookup (scanIdentGo (st.source.length - st.pos) st "").1 with
  | none => exact key
  | some t => exact key

theorem twoChar_source (c2 : Char) (t2 : TokenType) (s2 : String) (t1 : TokenType)
    (s1 : String) (l c : Nat) (st : LState) :
    (twoChar c2 t2 s2 t1 s1 l c st).2.1.source = st.source := by
  unfold twoChar
  split_ifs <;> rfl

theorem twoChar_pos_le (c2 : Char) (t2 : TokenType) (s2 : String) (t1 : TokenType)
    (s1 : String) (l c : Nat) (st : LState) :
    st.pos ≤ (twoChar c2 t2 s2 t1 s1 l c st).2.1.pos := by
  unfold twoChar
  split_ifs
  · exact Nat.le_succ _
  · exact le_refl _

theorem twoChar_lookahead (c2 : Char) (t2 : TokenType) (s2 : String) (t1 : TokenType)
    (s1 : String) (l c : Nat) (st : LState) :
    (twoChar c2 t2 s2 t1 s1 l c st).2.2 = some st.pos := by
  unfold twoChar
  split_ifs <;> rfl

theorem opSwitch_source (ch : Char) (l c : Nat) (st : LState) :
    (opSwitch ch l c st).2.1.source = st.source := by
  unfold opSwitch
  cases twoCharSpec ch with
  | none => rfl
  | some p => exact twoChar_source _ _ _ _ _ _ _ _

theorem opSwitch_pos_le (ch : Char) (l c : Nat) (st : LState) :
    st.pos ≤ (opSwitch ch l c st).2.1.pos := by
  unfold opSwitch
  cases twoCharSpec ch with
  | none => exact le_refl _
  | some p => exact twoChar_pos_le _ _ _ _ _ _ _ _

theorem opSwitch_lookahead (ch : Char) (l c : Nat) (st : LState) (i : Nat)
    (h : (opSwitch ch l c st).2.2 = some i) : i = st.pos := by
  unfold opSwitch at h
  cases htc : twoCharSpec ch with
  | none => rw [htc] at h; simp at h
  | some p =>
    rw [htc] at h
    rw [twoChar_lookahead] at h
    exact (Option.some_inj.mp h).symm

theorem nextToken_source (st0 : LState) : (nextToken st0).2.1.source = st0.source := by
  simp only [nextToken]
  split_ifs with h1 h2 h3 h4
  · rw [scanString_source, skipWhitespaceAndComments_source]
  · rw [scanNumber_source, skipWhitespaceAndComments_source]
  · rw [scanIdentifierOrKeyword_source, skipWhitespaceAndComments_source]
  · rw [opSwitch_source]
    exact skipWhitespaceAndComments_source st0
  · exact skipWhitespaceAndComments_source st0

theorem nextToken_exhausted (st0 : LState) (h : st0.source.length ≤ st0.pos) :
    nextToken st0 = (⟨.EOF_TOKEN, "", st0.line, st0.column⟩, st0, none) := by
  simp only [nextToken, skipWhitespaceAndComments_exhausted st0 h]
  rw [if_neg (by omega)]

theorem nextToken_lookahead_le (st0 : LState) (i : Nat)
    (h : (nextToken st0).2.2 = some i) : i ≤ st0.source.length := by
  have hsrc := skipWhitespaceAndComments_source st0
  simp only [nextToken] at h
  split_ifs at h with h1 h2 h3 h4
  all_goals first
    | exact Option.noConfusion h
    | (have hi := opSwitch_lookahead _ _ _ _ i h
       rw [hsrc] at h1
       rw [hi]
       show (skipWhitespaceAndComments st0).pos + 1 ≤ st0.source.length
       omega)

theorem nextToken_progress (st0 : LState)
    (h : (nextToken st0).1.type ≠ .EOF_TOKEN) :
    st0.pos < (nextToken st0).2.1.pos := by
  have hle := skipWhitespaceAndComments_pos_le st0
  simp only [nextToken] at h ⊢
  split_ifs at h ⊢ with h1 h2 h3 h4
  · exact Nat.lt_of_le_of_lt hle (Nat.lt_of_succ_le (scanString_pos_lt _ _))
  · exact Nat.lt_of_le_of_lt hle (Nat.lt_of_succ_le (scanNumber_pos_lt _ h1 h3))
  · have h4b :
        cIsAlnum (charAt (skipWhitespaceAndComments st0).source
          (skipWhitespaceAndComments st0).pos) = true ∨
        charAt (skipWhitespaceAndComments st0).source
          (skipWhitespaceAndComments st0).pos = '_' := by
      rcases h4 with ha | hu
      · left
        simp [cIsAlnum, ha]
      · right
        exact hu
    exact Nat.lt_of_le_of_lt hle
      (Nat.lt_of_succ_le (scanIdentifierOrKeyword_pos_lt _ h1 h4b))
  · exact Nat.lt_of_le_of_lt hle (Nat.lt_of_succ_le (opSwitch_pos_le
      (charAt (skipWhitespaceAndComments st0).source (skipWhitespaceAndComments st0).pos)
      (skipWhitespaceAndComments st0).line (skipWhitespaceAndComments st0).column
      { skipWhitespaceAndComments st0 with
        pos := (skipWhitespaceAndComments st0).pos + 1,
        column := (skipWhitespaceAndComments st0).column + 1 }))
  · simp at h

theorem tokenizeGo_ext (f1 : Nat) :
    ∀ (f2 : Nat) (st : LState),
      st.source.length - st.pos < f1 → st.source.length - st.pos < f2 →
      tokenizeGo f1 st = tokenizeGo f2 st := by
  induction f1 with
  | zero => intro f2 st h1 h2; omega
  | succ a ih =>
    intro f2 st h1 h2
    cases f2 with
    | zero => omega
    | succ b =>
      unfold tokenizeGo
      by_cases he : (nextToken st).1.type = .EOF_TOKEN
      · rw [if_pos he, if_pos he]
      · rw [if_neg he, if_neg he]
        congr 1
        have hp := nextToken_progress st he
        have hs := nextToken_source st
        have hpos : st.pos < st.source.length := by
          by_contra hc
          push_neg at hc
          rw [nextToken_exhausted st hc] at he
          exact he rfl
        apply ih
        · rw [hs]
          omega
        · rw [hs]
          omega

-- ===========================================================================
-- Claim C4
-- ===========================================================================

/-- Claim C4 (corrected), counterexample: lexing the one-character source
consisting of a plus sign makes nextToken perform its operator-lookahead
read at index 1, which is not a valid character index of the
one-character buffer (C++ defines that read to yield the null
terminator): the lookahead is not bounds-checked. -/
theorem claim_C4_counterexample :
    (nextToken ⟨"+".data, 0, 1, 1⟩).2.2 = some 1 ∧ ¬(1 < ("+".data).length) :=
  ⟨rfl, by decide⟩

/-- Claim C4 (amended): the operator lookahead is not bounds-checked, but
every lookahead read lands at an index at most the source length (index
= length reads the null terminator, which C++11 defines, so no read
leaves the allocated buffer); once the cursor is at or past the end,
every call returns an end-of-input token with the state unchanged (hence
EOF forever after); every non-EOF token strictly advances the cursor; and
tokenization never hangs: the canonical fuel already computes the fixed
point, with any extra fuel giving the same token list. -/
theorem claim_C4 :
    (∀ (st : LState) (i : Nat), (nextToken st).2.2 = some i → i ≤ st.source.length) ∧
    (∀ st : LState, st.source.length ≤ st.pos →
      nextToken st = (⟨.EOF_TOKEN, "", st.line, st.column⟩, st, none)) ∧
    (∀ st : LState, (nextToken st).1.type ≠ .EOF_TOKEN →
      st.pos < (nextToken st).2.1.pos) ∧
    (∀ (st : LState) (k : Nat),
      tokenizeGo (st.source.length - st.pos + 1 + k) st = tokenize st) := by
  refine ⟨nextToken_lookahead_le, nextToken_exhausted, nextToken_progress, ?_⟩
  intro st k
  unfold tokenize
  exact tokenizeGo_ext _ _ st (by omega) (by omega)

/-- Witness for claim C4: all four parts applied to the one-character
source consisting of a plus sign. -/
theorem claim_C4_witness :
    ((1 : Nat) ≤ ("+".data).length) ∧
    (nextToken ⟨"+".data, 5, 2, 3⟩ = (⟨.EOF_TOKEN, "", 2, 3⟩, ⟨"+".data, 5, 2, 3⟩, none)) ∧
    ((0 : Nat) < (nextToken ⟨"+".data, 0, 1, 1⟩).2.1.pos) ∧
    (tokenizeGo (("+".data).length - 0 + 1 + 7) ⟨"+".data, 0, 1, 1⟩ =
      tokenize ⟨"+".data, 0, 1, 1⟩) :=
  ⟨claim_C4.1 ⟨"+".data, 0, 1, 1⟩ 1 rfl,
   claim_C4.2.1 ⟨"+".data, 5, 2, 3⟩ (by decide),
   claim_C4.2.2.1 ⟨"+".data, 0, 1, 1⟩ (by decide),
   claim_C4.2.2.2 ⟨"+".data, 0, 1, 1⟩ 7⟩
